import Mathlib

/-!
Verification of the `pkger` declarative package applier (dry-run / apply /
rollback orchestrator) against its natural-language specification.

The Go source (`service.go` of package `pkger`) is shallowly embedded:
external collaborator services (bucket, label, secret, ... services) are
modelled as oracles packaged in an `Env` record, the `*Pkg` object that the
Go code mutates in place is threaded as an explicit value, and the
concurrent tier execution of `Apply` is sequentialised (tier boundaries and
recording order are preserved; scheduling inside a tier is not observable
in the properties below).
-/

namespace Pkger

/-- Platform IDs (influxdb.ID) are 64-bit integers; modelled as `Nat`. -/
abbrev ID := Nat

/-- Error codes of `influxdb.Error` that the service produces, plus `parse`
for package parse errors (`IsParseErr`) and `plain` for bare aggregate
errors built with `errors.New`. -/
inductive ECode where
  | internal
  | unprocessable
  | conflict
  | invalid
  | parse
  | plain
deriving DecidableEq, Repr

/-- An error value: the code it would carry over the wire plus its message. -/
structure GoErr where
  code : ECode
  msg : String
deriving DecidableEq, Repr

/-- `internalErr` wraps any non-nil error as an `EInternal` influx error. -/
def internalErr (e : GoErr) : GoErr := { code := ECode.internal, msg := e.msg }

/-- `failedValidationErr` wraps an error as `EUnprocessableEntity`. -/
def failedValidationErr (e : GoErr) : GoErr :=
  { code := ECode.unprocessable, msg := e.msg }

/-- `IsParseErr` recognises package parse errors. -/
def GoErr.isParse (e : GoErr) : Bool := e.code = ECode.parse

/-- ApplyOpt: the typed options built from `ApplyOptFn`s (env refs and
user-supplied missing secrets). Maps are modelled as association lists. -/
structure ApplyOpt where
  envRefs : List (String × String)
  missingSecrets : List (String × String)
deriving DecidableEq, Repr

/-- The zero `ApplyOpt`, as built when `Apply` calls `s.DryRun(ctx, orgID,
userID, pkg)` passing no option functions. -/
def ApplyOpt.empty : ApplyOpt := { envRefs := [], missingSecrets := [] }

/-! ### Association-list helpers standing in for Go maps -/

/-- Insert-or-overwrite for an association list, the effect of a Go map
assignment `m[k] = v`. -/
def upsert {α : Type} : List (String × α) → String → α → List (String × α)
  | [], k, v => [(k, v)]
  | (k0, v0) :: rest, k, v =>
      if k0 = k then (k, v) :: rest else (k0, v0) :: upsert rest k v

/-- Keep, for each key, its last binding (a Go map built by iterating a
slice in order: later assignments overwrite earlier ones). -/
def lastWins {α : Type} : List (String × α) → List (String × α)
  | [] => []
  | (k, v) :: rest =>
      if k ∈ rest.map Prod.fst then lastWins rest
      else (k, v) :: lastWins rest

/-- Lookup in a Go map modelled as a slice with last-binding-wins
semantics (the value of the latest assignment for the key). -/
def mapLookup {α : Type} : List (String × α) → String → Option α
  | [], _ => none
  | (k0, v0) :: rest, k =>
      match mapLookup rest k with
      | some v => some v
      | none => if k0 = k then some v0 else none

/-! ### Live (platform-side) resources, as seen through the service ports -/

/-- A live bucket as returned by `influxdb.BucketService`. -/
structure InfluxBucket where
  id : ID
  orgID : ID
  name : String
  description : String
  rp : Nat
deriving DecidableEq, Repr

/-- A live check; only the fields the applier reads. -/
structure InfluxCheck where
  id : ID
  name : String
  status : String
deriving DecidableEq, Repr

/-- A live label. -/
structure InfluxLabel where
  id : ID
  name : String
  properties : List (String × String)
deriving DecidableEq, Repr

/-- A live variable. -/
structure InfluxVariable where
  id : ID
  name : String
  description : String
  args : String
deriving DecidableEq, Repr

/-- A live notification endpoint; `secretKeys` models the keys of its
`SecretFields()`. -/
structure InfluxEndpoint where
  id : ID
  name : String
  eType : String
  secretKeys : List String
deriving DecidableEq, Repr

/-! ### In-package resources

The `Pkg` data type itself lives in the parser file, which is not part of
the sources under verification; its fields are modelled from the spec
(§3 Data model): each in-package resource carries a package-name, a display
name, kind-specific fields, a mutable `existing` slot set during dry-run, a
mutable `id` slot set during apply, a `shouldApply` predicate, and its
label associations by label name. -/

/-- Modelled from the spec: an in-package bucket declaration with its
mutable `existing` and `id` slots. -/
structure PkgBucket where
  pkgName : String
  name : String
  description : String
  rp : Nat
  orgID : ID
  id : ID
  shouldApply : Bool
  existing : Option InfluxBucket
  labels : List String
deriving DecidableEq, Repr

/-- Modelled from the spec: an in-package check declaration. -/
structure PkgCheck where
  pkgName : String
  name : String
  status : String
  orgID : ID
  id : ID
  shouldApply : Bool
  existing : Option InfluxCheck
  labels : List String
deriving DecidableEq, Repr

/-- Modelled from the spec: an in-package label declaration. -/
structure PkgLabel where
  pkgName : String
  name : String
  properties : List (String × String)
  orgID : ID
  id : ID
  shouldApply : Bool
  existing : Option InfluxLabel
deriving DecidableEq, Repr

/-- Modelled from the spec: an in-package variable declaration. -/
structure PkgVariable where
  pkgName : String
  name : String
  description : String
  args : String
  orgID : ID
  id : ID
  shouldApply : Bool
  existing : Option InfluxVariable
  labels : List String
deriving DecidableEq, Repr

/-- Modelled from the spec: an in-package notification endpoint, with the
secret-reference slots that the apply engine back-fills by key suffix. -/
structure PkgEndpoint where
  pkgName : String
  name : String
  eType : String
  orgID : ID
  id : ID
  shouldApply : Bool
  existing : Option InfluxEndpoint
  labels : List String
  routingKeySecret : String
  tokenSecret : String
  usernameSecret : String
  passwordSecret : String
deriving DecidableEq, Repr

/-- Modelled from the spec: an in-package notification rule referencing an
endpoint by package-name; `endpointID`/`endpointType` are annotated by the
reference resolver during apply. -/
structure PkgRule where
  pkgName : String
  name : String
  endpointName : String
  endpointID : ID
  endpointType : String
  orgID : ID
  id : ID
  shouldApply : Bool
  labels : List String
deriving DecidableEq, Repr

/-- Modelled from the spec: an in-package dashboard declaration
(dashboards are always created, never updated). -/
structure PkgDashboard where
  pkgName : String
  name : String
  description : String
  orgID : ID
  id : ID
  shouldApply : Bool
  labels : List String
deriving DecidableEq, Repr

/-- Modelled from the spec: an in-package task declaration (always
created). -/
structure PkgTask where
  pkgName : String
  name : String
  description : String
  status : String
  orgID : ID
  id : ID
  shouldApply : Bool
  labels : List String
deriving DecidableEq, Repr

/-- Modelled from the spec: an in-package telegraf configuration (always
created). -/
structure PkgTelegraf where
  pkgName : String
  name : String
  orgID : ID
  id : ID
  shouldApply : Bool
  labels : List String
deriving DecidableEq, Repr

/-- Modelled from the spec: the platform ID of an in-package bucket — the
live resource's ID when an `existing` slot was captured at dry-run,
otherwise the `id` slot set at apply time. -/
def PkgBucket.platformID (b : PkgBucket) : ID :=
  match b.existing with
  | some e => e.id
  | none => b.id

/-- Modelled from the spec: platform ID of an in-package check. -/
def PkgCheck.platformID (c : PkgCheck) : ID :=
  match c.existing with
  | some e => e.id
  | none => c.id

/-- Modelled from the spec: platform ID of an in-package label. -/
def PkgLabel.platformID (l : PkgLabel) : ID :=
  match l.existing with
  | some e => e.id
  | none => l.id

/-- Modelled from the spec: platform ID of an in-package variable. -/
def PkgVariable.platformID (v : PkgVariable) : ID :=
  match v.existing with
  | some e => e.id
  | none => v.id

/-- Modelled from the spec: platform ID of an in-package endpoint. -/
def PkgEndpoint.platformID (e : PkgEndpoint) : ID :=
  match e.existing with
  | some ex => ex.id
  | none => e.id

/-- Modelled from the spec: a parsed package. `secrets` is the set of
secret keys the package references together with the `live` flag set by
dry-run; `isParsed`/`isVerified` are the parse and dry-run markers the
service consults. -/
structure Pkg where
  isParsed : Bool
  isVerified : Bool
  buckets : List PkgBucket
  checks : List PkgCheck
  dashboards : List PkgDashboard
  labels : List PkgLabel
  endpoints : List PkgEndpoint
  rules : List PkgRule
  tasks : List PkgTask
  telegrafs : List PkgTelegraf
  vars : List PkgVariable
  secrets : List (String × Bool)
deriving DecidableEq, Repr

/-! ### Diffs -/

/-- The mutable bucket fields the applier writes. -/
structure DiffBucketValues where
  description : String
  rp : Nat
deriving DecidableEq, Repr

/-- Diff entry for a bucket: package name, live state if any, new state. -/
structure DiffBucket where
  name : String
  old : Option DiffBucketValues
  new : DiffBucketValues
deriving DecidableEq, Repr

/-- Per the spec, `isNew` holds exactly when there is no live counterpart. -/
def DiffBucket.isNew (d : DiffBucket) : Bool := d.old.isNone

/-- Diff entry for a check (`old`/`new` carry the check status). -/
structure DiffCheck where
  name : String
  old : Option String
  new : String
deriving DecidableEq, Repr

def DiffCheck.isNew (d : DiffCheck) : Bool := d.old.isNone

/-- Diff entry for a label (`old`/`new` carry the properties). -/
structure DiffLabel where
  name : String
  old : Option (List (String × String))
  new : List (String × String)
deriving DecidableEq, Repr

def DiffLabel.isNew (d : DiffLabel) : Bool := d.old.isNone

/-- Diff entry for a variable (`old`/`new` carry description and
arguments). -/
structure DiffVariable where
  name : String
  old : Option (String × String)
  new : String × String
deriving DecidableEq, Repr

def DiffVariable.isNew (d : DiffVariable) : Bool := d.old.isNone

/-- Diff entry for a notification endpoint (`old`/`new` carry the endpoint
type). -/
structure DiffNotificationEndpoint where
  name : String
  old : Option String
  new : String
deriving DecidableEq, Repr

/-- Diff entry for a notification rule, carrying the resolved target
endpoint. -/
structure DiffNotificationRule where
  name : String
  endpointName : String
  endpointID : ID
  endpointType : String
deriving DecidableEq, Repr

/-- Diff entry for a dashboard (always new). -/
structure DiffDashboard where
  name : String
  description : String
deriving DecidableEq, Repr

/-- Diff entry for a task (always new). -/
structure DiffTask where
  name : String
deriving DecidableEq, Repr

/-- Diff entry for a telegraf config (always new). -/
structure DiffTelegraf where
  name : String
deriving DecidableEq, Repr

/-- Diff entry for a label mapping. -/
structure DiffLabelMapping where
  isNew : Bool
  resType : String
  resID : ID
  resName : String
  labelID : ID
  labelName : String
deriving DecidableEq, Repr

/-- The full diff produced by dry-run. -/
structure Diff where
  buckets : List DiffBucket
  checks : List DiffCheck
  dashboards : List DiffDashboard
  labels : List DiffLabel
  tasks : List DiffTask
  telegrafs : List DiffTelegraf
  vars : List DiffVariable
  notificationEndpoints : List DiffNotificationEndpoint
  notificationRules : List DiffNotificationRule
  labelMappings : List DiffLabelMapping
deriving DecidableEq, Repr

/-- The zero `Diff` value (`Diff{}` in Go), returned on error paths. -/
def Diff.empty : Diff :=
  { buckets := [], checks := [], dashboards := [], labels := [], tasks := []
    telegrafs := [], vars := [], notificationEndpoints := []
    notificationRules := [], labelMappings := [] }

/-- Modelled from the spec: the summary (`pkg.Summary()`, built by the
parser file, absent from the sources) — per kind the platform ID and name
of each declared resource, plus the secret keys with their `live` flag. -/
structure Summary where
  buckets : List (ID × String)
  checks : List (ID × String)
  dashboards : List (ID × String)
  labels : List (ID × String)
  endpoints : List (ID × String)
  rules : List (ID × String)
  tasks : List (ID × String)
  telegrafs : List (ID × String)
  vars : List (ID × String)
  secrets : List (String × Bool)
deriving DecidableEq, Repr

/-- The zero `Summary` value (`Summary{}` in Go). -/
def Summary.empty : Summary :=
  { buckets := [], checks := [], dashboards := [], labels := []
    endpoints := [], rules := [], tasks := [], telegrafs := []
    vars := [], secrets := [] }

/-- Modelled from the spec: `pkg.Summary()` lists each kind with platform
IDs and names, and the referenced secret keys with their live flags. -/
def Pkg.summary (p : Pkg) : Summary :=
  { buckets := p.buckets.map (fun b => (b.platformID, b.name))
    checks := p.checks.map (fun c => (c.platformID, c.name))
    dashboards := p.dashboards.map (fun d => (d.id, d.name))
    labels := p.labels.map (fun l => (l.platformID, l.name))
    endpoints := p.endpoints.map (fun e => (e.platformID, e.name))
    rules := p.rules.map (fun r => (r.id, r.name))
    tasks := p.tasks.map (fun t => (t.id, t.name))
    telegrafs := p.telegrafs.map (fun t => (t.id, t.name))
    vars := p.vars.map (fun v => (v.platformID, v.name))
    secrets := p.secrets }

/-! ### Sort relations used by the dry-run diff lists -/

/-- Comparison by a string key, the relation behind
`sort.Slice(diffs, func(i, j int) bool ... Name < ... Name)`. -/
def byNameLe {α : Type} (f : α → String) (a b : α) : Prop := f a ≤ f b

instance {α : Type} (f : α → String) : DecidableRel (byNameLe f) :=
  fun a b => inferInstanceAs (Decidable (f a ≤ f b))

instance {α : Type} (f : α → String) : IsTotal α (byNameLe f) :=
  ⟨fun a b => le_total (f a) (f b)⟩

instance {α : Type} (f : α → String) : IsTrans α (byNameLe f) :=
  ⟨fun _ _ _ hab hbc => le_trans hab hbc⟩

/-- Lexicographic order on `(resourceType, resourceName, labelName)`, the
relation behind the label-mapping diff sort. -/
def tripleLe (a b : String × String × String) : Prop :=
  a.1 < b.1 ∨ (a.1 = b.1 ∧ (a.2.1 < b.2.1 ∨ (a.2.1 = b.2.1 ∧ a.2.2 ≤ b.2.2)))

instance : DecidableRel tripleLe := fun a b => by
  unfold tripleLe; infer_instance

instance : IsTotal (String × String × String) tripleLe := by
  constructor
  intro a b
  rcases lt_trichotomy a.1 b.1 with h1 | h1 | h1
  · exact Or.inl (Or.inl h1)
  · rcases lt_trichotomy a.2.1 b.2.1 with h2 | h2 | h2
    · exact Or.inl (Or.inr ⟨h1, Or.inl h2⟩)
    · rcases le_total a.2.2 b.2.2 with h3 | h3
      · exact Or.inl (Or.inr ⟨h1, Or.inr ⟨h2, h3⟩⟩)
      · exact Or.inr (Or.inr ⟨h1.symm, Or.inr ⟨h2.symm, h3⟩⟩)
    · exact Or.inr (Or.inr ⟨h1.symm, Or.inl h2⟩)
  · exact Or.inr (Or.inl h1)

instance : IsTrans (String × String × String) tripleLe := by
  constructor
  intro a b c hab hbc
  rcases hab with h1 | ⟨h1, h2⟩
  · rcases hbc with g1 | ⟨g1, _⟩
    · exact Or.inl (lt_trans h1 g1)
    · exact Or.inl (g1 ▸ h1)
  · rcases hbc with g1 | ⟨g1, g2⟩
    · exact Or.inl (h1 ▸ g1)
    · refine Or.inr ⟨h1.trans g1, ?_⟩
      rcases h2 with h2 | ⟨h2, h3⟩
      · rcases g2 with g2 | ⟨g2, _⟩
        · exact Or.inl (lt_trans h2 g2)
        · exact Or.inl (g2 ▸ h2)
      · rcases g2 with g2 | ⟨g2, g3⟩
        · exact Or.inl (h2 ▸ g2)
        · exact Or.inr ⟨h2.trans g2, le_trans h3 g3⟩

/-- The sort key of a label-mapping diff. -/
def mappingKey (d : DiffLabelMapping) : String × String × String :=
  (d.resType, d.resName, d.labelName)

/-- The label-mapping diff ordering: by resource type, then resource name,
then label name, all ascending. -/
def mappingLe (a b : DiffLabelMapping) : Prop := tripleLe (mappingKey a) (mappingKey b)

instance : DecidableRel mappingLe := fun a b =>
  inferInstanceAs (Decidable (tripleLe (mappingKey a) (mappingKey b)))

instance : IsTotal DiffLabelMapping mappingLe :=
  ⟨fun a b => IsTotal.total (r := tripleLe) (mappingKey a) (mappingKey b)⟩

instance : IsTrans DiffLabelMapping mappingLe :=
  ⟨fun _ _ _ hab hbc => IsTrans.trans (r := tripleLe) _ _ _ hab hbc⟩

/-! ### Downstream service calls (the applier → platform traffic) -/

/-- One downstream service call, as issued by the apply and rollback
paths. -/
inductive SvcCall where
  | createBucket (orgID : ID) (name descr : String) (rp : Nat)
  | updateBucket (id : ID) (descr : String) (rp : Nat)
  | deleteBucket (id : ID)
  | createLabel (orgID : ID) (name : String) (props : List (String × String))
  | updateLabel (id : ID) (props : List (String × String))
  | deleteLabel (id : ID)
  | createVariable (orgID : ID) (name descr args : String)
  | updateVariable (id : ID) (descr args : String)
  | deleteVariable (id : ID)
  | createCheck (orgID : ID) (name status : String)
  | updateCheck (id : ID) (name status : String)
  | deleteCheck (id : ID)
  | createDashboard (orgID : ID) (name descr : String)
  | deleteDashboard (id : ID)
  | createEndpoint (orgID : ID) (name eType : String)
  | updateEndpoint (id : ID)
  | deleteEndpoint (id : ID)
  | createRule (orgID : ID) (name : String) (endpointID : ID)
  | deleteRule (id : ID)
  | createTask (orgID : ID) (name : String)
  | deleteTask (id : ID)
  | createTelegraf (orgID : ID) (name : String)
  | deleteTelegraf (id : ID)
  | putSecrets (orgID : ID) (kvs : List (String × String))
  | deleteSecret (orgID : ID)
  | createLabelMapping (labelID resID : ID) (resType : String)
  | deleteLabelMapping (labelID resID : ID)
deriving DecidableEq, Repr

/-! ### The collaborator oracle

One value of `Env` fixes the behaviour of every downstream service call a
single dry-run/apply makes: lookups are functions of the query, bulk
listings are constants (the service caches nothing between calls, but the
claims below never depend on a collaborator changing answers mid-run). -/

/-- Oracles for the external collaborator services and for the two parser
operations (`Validate`, `applyEnvRefs`) that live outside the verified
sources. `Except String` results model `(value, error)` returns. -/
structure Env where
  validateErr : Option GoErr
  applyEnvRefsErr : Option GoErr
  secretKeys : Except String (List String)
  findBucketByName : String → Except String InfluxBucket
  findCheck : String → Except String InfluxCheck
  findLabels : String → Except String (List InfluxLabel)
  findVariables : Except String (List InfluxVariable)
  findEndpoints : Except String (List InfluxEndpoint)
  findResourceLabels : String → ID → Except String (List InfluxLabel)

/-! ### Dry-run engine -/

/-- Modelled from the spec: `newDiffBucket` pairs the package bucket with
its live counterpart (if any); only the fields the applier writes. -/
def newDiffBucket (b : PkgBucket) (old : Option InfluxBucket) : DiffBucket :=
  { name := b.name
    old := old.map (fun e => { description := e.description, rp := e.rp })
    new := { description := b.description, rp := b.rp } }

/-- The `existing`-slot mutation one loop iteration of
`Service.dryRunBuckets` performs: a nil lookup error records the live
bucket, any other outcome (the `default` case) leaves the slot as is. -/
def bucketUpd (env : Env) (b : PkgBucket) : PkgBucket :=
  match env.findBucketByName b.name with
  | .ok ex => { b with existing := some ex }
  | .error _ => b

/-- The diff-map entry one loop iteration of `dryRunBuckets` writes. -/
def bucketEntry (env : Env) (b : PkgBucket) : String × DiffBucket :=
  match env.findBucketByName b.name with
  | .ok ex => (b.name, newDiffBucket b (some ex))
  | .error _ => (b.name, newDiffBucket b none)

/-- `Service.dryRunBuckets`: look each package bucket up by name,
mutating `existing` slots and filling the diff map keyed by name, then
flatten the map and sort by name ascending. -/
def dryRunBuckets (env : Env) (bkts : List PkgBucket) :
    List PkgBucket × List DiffBucket :=
  (bkts.map (bucketUpd env),
   List.insertionSort (byNameLe DiffBucket.name)
     ((lastWins (bkts.map (bucketEntry env))).map Prod.snd))

/-- Modelled from the spec: `newDiffCheck` (old/new carry the status). -/
def newDiffCheck (c : PkgCheck) (old : Option InfluxCheck) : DiffCheck :=
  { name := c.name, old := old.map (fun e => e.status), new := c.status }

/-- The `existing`-slot mutation of one `dryRunChecks` iteration. -/
def checkUpd (env : Env) (c : PkgCheck) : PkgCheck :=
  match env.findCheck c.name with
  | .ok ex => { c with existing := some ex }
  | .error _ => c

/-- The diff-map entry of one `dryRunChecks` iteration. -/
def checkEntry (env : Env) (c : PkgCheck) : String × DiffCheck :=
  match env.findCheck c.name with
  | .ok ex => (c.name, newDiffCheck c (some ex))
  | .error _ => (c.name, newDiffCheck c none)

/-- `Service.dryRunChecks`: same per-name lookup pattern as buckets. -/
def dryRunChecks (env : Env) (checks : List PkgCheck) :
    List PkgCheck × List DiffCheck :=
  (checks.map (checkUpd env),
   List.insertionSort (byNameLe DiffCheck.name)
     ((lastWins (checks.map (checkEntry env))).map Prod.snd))

/-- Modelled from the spec: `newDiffDashboard` (dashboards are always
new). -/
def newDiffDashboard (d : PkgDashboard) : DiffDashboard :=
  { name := d.name, description := d.description }

/-- `Service.dryRunDashboards`: no live lookup, one diff per dashboard in
package order. -/
def dryRunDashboards (dashs : List PkgDashboard) : List DiffDashboard :=
  dashs.map newDiffDashboard

/-- Modelled from the spec: `newDiffLabel` (old/new carry the
properties). -/
def newDiffLabel (l : PkgLabel) (old : Option InfluxLabel) : DiffLabel :=
  { name := l.name, old := old.map (fun e => e.properties), new := l.properties }

/-- The lookup of one `dryRunLabels` iteration: find-labels with a name
filter and limit 1; only a nil error together with a non-empty result
counts as live (`existingLabels[0]`), every other outcome is absent. -/
def labelLookup (env : Env) (l : PkgLabel) : Option InfluxLabel :=
  match env.findLabels l.name with
  | .ok (e :: _) => some e
  | .ok [] => none
  | .error _ => none

/-- The `existing`-slot mutation of one `dryRunLabels` iteration. -/
def labelUpd (env : Env) (l : PkgLabel) : PkgLabel :=
  match labelLookup env l with
  | some ex => { l with existing := some ex }
  | none => l

/-- The diff-map entry of one `dryRunLabels` iteration. -/
def labelEntry (env : Env) (l : PkgLabel) : String × DiffLabel :=
  (l.name, newDiffLabel l (labelLookup env l))

/-- `Service.dryRunLabels`: per-name find with limit 1, diff map keyed by
name, flattened and sorted by name ascending. -/
def dryRunLabels (env : Env) (labels : List PkgLabel) :
    List PkgLabel × List DiffLabel :=
  (labels.map (labelUpd env),
   List.insertionSort (byNameLe DiffLabel.name)
     ((lastWins (labels.map (labelEntry env))).map Prod.snd))

/-- Modelled from the spec: `newDiffTask`. -/
def newDiffTask (t : PkgTask) : DiffTask := { name := t.name }

/-- `Service.dryRunTasks`: one diff per task in package order. -/
def dryRunTasks (tasks : List PkgTask) : List DiffTask :=
  tasks.map newDiffTask

/-- Modelled from the spec: `newDiffTelegraf`. -/
def newDiffTelegraf (t : PkgTelegraf) : DiffTelegraf := { name := t.name }

/-- `Service.dryRunTelegraf`: one diff per telegraf config in package
order. -/
def dryRunTelegraf (teles : List PkgTelegraf) : List DiffTelegraf :=
  teles.map newDiffTelegraf

/-- Modelled from the spec: `newDiffVariable` (old/new carry description
and arguments). -/
def newDiffVariable (v : PkgVariable) (old : Option InfluxVariable) : DiffVariable :=
  { name := v.name
    old := old.map (fun e => (e.description, e.args))
    new := (v.description, v.args) }

/-- The lookup of one `dryRunVariables` iteration: variables are fetched
in bulk (no name filter) and matched client-side; a nil error with a
name match yields the live variable, any other outcome (error, empty
listing, no name match) is absent. -/
def variableLookup (env : Env) (v : PkgVariable) : Option InfluxVariable :=
  match env.findVariables with
  | .ok evs => evs.find? (fun ev => ev.name = v.name)
  | .error _ => none

/-- The `existing`-slot mutation of one `dryRunVariables` iteration. -/
def variableUpd (env : Env) (v : PkgVariable) : PkgVariable :=
  match variableLookup env v with
  | some ex => { v with existing := some ex }
  | none => v

/-- The diff-map entry of one `dryRunVariables` iteration. -/
def variableEntry (env : Env) (v : PkgVariable) : String × DiffVariable :=
  (v.name, newDiffVariable v (variableLookup env v))

/-- `Service.dryRunVariables`: bulk fetch with client-side matching, diff
map keyed by name, flattened and sorted by name ascending. -/
def dryRunVariables (env : Env) (vars : List PkgVariable) :
    List PkgVariable × List DiffVariable :=
  (vars.map (variableUpd env),
   List.insertionSort (byNameLe DiffVariable.name)
     ((lastWins (vars.map (variableEntry env))).map Prod.snd))

/-- Modelled from the spec: `newDiffNotificationEndpoint` (old/new carry
the endpoint type). -/
def newDiffNotificationEndpoint (e : PkgEndpoint) (old : Option InfluxEndpoint) :
    DiffNotificationEndpoint :=
  { name := e.name, old := old.map (fun x => x.eType), new := e.eType }

/-- `Service.dryRunNotificationEndpoints`: endpoints are fetched once in
bulk (an error aborts with an internal error), indexed by name, and each
package endpoint is matched in memory; the diff map is flattened and
sorted by name. -/
def dryRunNotificationEndpoints (env : Env) (endpoints : List PkgEndpoint) :
    Except String (List PkgEndpoint × List DiffNotificationEndpoint) :=
  match env.findEndpoints with
  | .error e => .error e
  | .ok lives =>
      let mExisting := lives.map (fun e => (e.name, e))
      let upd := endpoints.map (fun ne =>
        match mapLookup mExisting ne.name with
        | some ex => { ne with existing := some ex }
        | none => ne)
      let entries := endpoints.map (fun ne =>
        (ne.name, newDiffNotificationEndpoint ne (mapLookup mExisting ne.name)))
      .ok (upd, List.insertionSort (byNameLe DiffNotificationEndpoint.name)
        ((lastWins entries).map Prod.snd))

/-- Modelled from the spec: the influx endpoint a package endpoint
summarises to (`e.summarize().NotificationEndpoint`). -/
def PkgEndpoint.summarize (e : PkgEndpoint) : InfluxEndpoint :=
  { id := e.platformID, name := e.name, eType := e.eType, secretKeys := [] }

/-- The error built for a rule whose endpoint dependency is missing
(`failed to find notification endpoint %q dependency for notification
rule %q`, code `EUnprocessableEntity`). -/
def ruleDepErr (endpointName ruleName : String) : GoErr :=
  { code := ECode.unprocessable
    msg := "failed to find notification endpoint \"" ++ endpointName ++
      "\" dependency for notification rule \"" ++ ruleName ++ "\"" }

/-- Modelled from the spec: `newDiffNotificationRule` carries the resolved
target endpoint. -/
def newDiffNotificationRule (r : PkgRule) (e : InfluxEndpoint) : DiffNotificationRule :=
  { name := r.name, endpointName := r.endpointName
    endpointID := e.id, endpointType := e.eType }

/-- The per-rule resolution loop of `Service.dryRunNotificationRules`:
prefer the live endpoint of that name, fall back to the package-declared
endpoint, and fail with the unprocessable dependency error on the first
rule with neither. -/
def dryRunRulesGo (mExisting mPkgEndpoints : List (String × InfluxEndpoint)) :
    List PkgRule → Except GoErr (List DiffNotificationRule)
  | [] => .ok []
  | r :: rest =>
      match mapLookup mExisting r.endpointName with
      | some e =>
          match dryRunRulesGo mExisting mPkgEndpoints rest with
          | .error err => .error err
          | .ok ds => .ok (newDiffNotificationRule r e :: ds)
      | none =>
          match mapLookup mPkgEndpoints r.endpointName with
          | some e =>
              match dryRunRulesGo mExisting mPkgEndpoints rest with
              | .error err => .error err
              | .ok ds => .ok (newDiffNotificationRule r e :: ds)
          | none => .error (ruleDepErr r.endpointName r.name)

/-- `Service.dryRunNotificationRules`: fetch the org's endpoints in bulk
(an error aborts with an internal error), index live endpoints by display
name and package endpoints by package name, then resolve each rule. -/
def dryRunNotificationRules (env : Env) (pkg : Pkg) :
    Except GoErr (List DiffNotificationRule) :=
  match env.findEndpoints with
  | .error e => .error (internalErr { code := ECode.plain, msg := e })
  | .ok lives =>
      let mExisting := lives.map (fun e => (e.name, e))
      let mPkgEndpoints := pkg.endpoints.map (fun e => (e.pkgName, e.summarize))
      dryRunRulesGo mExisting mPkgEndpoints pkg.rules

/-- `Service.dryRunSecrets`: nothing to do when the package references no
secrets; otherwise fetch the org's secret keys (an error aborts with an
internal error) and mark every platform key as live in the package's
secret map. -/
def dryRunSecrets (env : Env) (secrets : List (String × Bool)) :
    Except String (List (String × Bool)) :=
  if secrets.isEmpty then .ok secrets
  else
    match env.secretKeys with
    | .error e => .error e
    | .ok keys => .ok (keys.foldl (fun m k => upsert m k true) secrets)

/-! ### Dry-run of label mappings -/

/-- The `labelAssociater` view of one labelable package resource. -/
structure Labelable where
  resType : String
  pid : ID
  name : String
  exist : Bool
  labels : List String
deriving DecidableEq, Repr

/-- `mapperBuckets`. -/
def mapperBuckets (bkts : List PkgBucket) : List Labelable :=
  bkts.map (fun b =>
    { resType := "buckets", pid := b.platformID, name := b.name
      exist := b.existing.isSome, labels := b.labels })

/-- `mapperChecks`. -/
def mapperChecks (checks : List PkgCheck) : List Labelable :=
  checks.map (fun c =>
    { resType := "checks", pid := c.platformID, name := c.name
      exist := c.existing.isSome, labels := c.labels })

/-- `mapperDashboards` (dashboards are never live at dry-run). -/
def mapperDashboards (dashs : List PkgDashboard) : List Labelable :=
  dashs.map (fun d =>
    { resType := "dashboards", pid := d.id, name := d.name
      exist := false, labels := d.labels })

/-- `mapperNotificationEndpoints`. -/
def mapperNotificationEndpoints (endpoints : List PkgEndpoint) : List Labelable :=
  endpoints.map (fun e =>
    { resType := "notificationEndpoints", pid := e.platformID, name := e.name
      exist := e.existing.isSome, labels := e.labels })

/-- `mapperNotificationRules` (rules are never live at dry-run). -/
def mapperNotificationRules (rules : List PkgRule) : List Labelable :=
  rules.map (fun r =>
    { resType := "notificationRules", pid := r.id, name := r.name
      exist := false, labels := r.labels })

/-- `mapperTasks`. -/
def mapperTasks (tasks : List PkgTask) : List Labelable :=
  tasks.map (fun t =>
    { resType := "tasks", pid := t.id, name := t.name
      exist := false, labels := t.labels })

/-- `mapperTelegrafs`. -/
def mapperTelegrafs (teles : List PkgTelegraf) : List Labelable :=
  teles.map (fun t =>
    { resType := "telegrafs", pid := t.id, name := t.name
      exist := false, labels := t.labels })

/-- `mapperVariables`. -/
def mapperVariables (vars : List PkgVariable) : List Labelable :=
  vars.map (fun v =>
    { resType := "variables", pid := v.platformID, name := v.name
      exist := v.existing.isSome, labels := v.labels })

/-- The `labelMappingDiffFn` callback of `dryRunLabelMappings`: ignore
label names that are not declared in the package, otherwise emit a
mapping diff. -/
def emitMapping (pkgLabels : List PkgLabel) (la : Labelable)
    (labelID : ID) (labelName : String) (isNew : Bool) : Option DiffLabelMapping :=
  match pkgLabels.find? (fun l => l.name = labelName) with
  | none => none
  | some _ =>
      some { isNew := isNew, resType := la.resType, resID := la.pid
             resName := la.name, labelID := labelID, labelName := labelName }

/-- `Service.dryRunResourceLabelMapping`: a resource with no live
counterpart emits every package association as new; a live resource lists
its live label associations (an error aborts), emits each as not-new, and
emits the package associations missing from live as new. -/
def dryRunResourceLabelMapping (env : Env) (pkgLabels : List PkgLabel)
    (la : Labelable) : Except String (List DiffLabelMapping) :=
  if la.exist = false then
    .ok (la.labels.filterMap (fun lname =>
      match pkgLabels.find? (fun l => l.name = lname) with
      | some pl => emitMapping pkgLabels la pl.platformID lname true
      | none => none))
  else
    match env.findResourceLabels la.resType la.pid with
    | .error e => .error e
    | .ok lives =>
        let fromLive := lives.filterMap (fun l =>
          emitMapping pkgLabels la l.id l.name false)
        let remaining := la.labels.filter
          (fun n => (lives.map InfluxLabel.name).contains n = false)
        let fromPkg := remaining.filterMap (fun lname =>
          match pkgLabels.find? (fun l => l.name = lname) with
          | some pl => emitMapping pkgLabels la pl.platformID lname true
          | none => none)
        .ok (fromLive ++ fromPkg)

/-- The iteration of `dryRunLabelMappings` over all labelable resources;
the first collaborator error aborts the whole pass. -/
def gatherMappings (env : Env) (pkgLabels : List PkgLabel) :
    List Labelable → Except String (List DiffLabelMapping)
  | [] => .ok []
  | la :: rest =>
      match dryRunResourceLabelMapping env pkgLabels la with
      | .error e => .error e
      | .ok ds =>
          match gatherMappings env pkgLabels rest with
          | .error e => .error e
          | .ok rest2 => .ok (ds ++ rest2)

/-- The `mappers` slice of `dryRunLabelMappings`: every labelable
resource of the package, mapper by mapper in source order. -/
def allLabelables (pkg : Pkg) : List Labelable :=
  mapperBuckets pkg.buckets ++ mapperChecks pkg.checks ++
    mapperDashboards pkg.dashboards ++ mapperNotificationEndpoints pkg.endpoints ++
    mapperNotificationRules pkg.rules ++ mapperTasks pkg.tasks ++
    mapperTelegrafs pkg.telegrafs ++ mapperVariables pkg.vars

/-- `Service.dryRunLabelMappings`: gather the mapping diffs across all
labelable kinds in source order, then sort by resource type, resource
name, label name, all ascending. -/
def dryRunLabelMappings (env : Env) (pkg : Pkg) :
    Except String (List DiffLabelMapping) :=
  match gatherMappings env pkg.labels (allLabelables pkg) with
  | .error e => .error e
  | .ok diffs => .ok (List.insertionSort mappingLe diffs)

/-! ### DryRun -/

/-- Modelled from the spec: `pkg.applyEnvRefs` substitutes the supplied
env-var references into the package; the modelled resource fields carry
no unresolved placeholders, so the substitution itself is the identity on
them, and substitution failures surface through the
`Env.applyEnvRefsErr` oracle. -/
def applyEnvRefsFn (p : Pkg) (_refs : List (String × String)) : Pkg := p

/-- The result of `Service.DryRun`: the package as mutated so far, the
summary, the diff, and the returned error (nil, a parse error carried to
the end, or the error of an aborting step). -/
structure DryRunOut where
  pkg : Pkg
  sum : Summary
  diff : Diff
  err : Option GoErr
deriving DecidableEq, Repr

/-- `Service.DryRun`. Validation failures other than parse errors abort
as internal errors; parse errors are carried while the diff is still
computed. Secrets, endpoint, rule and label-mapping collaborator failures
abort with zero-value summary and diff. Only the completion path sets
`isVerified`. -/
def DryRun (env : Env) (_orgID _userID : ID) (opt : ApplyOpt) (pkg0 : Pkg) :
    DryRunOut :=
  let parseStep : Except GoErr (Option GoErr) :=
    if pkg0.isParsed then .ok none
    else
      match env.validateErr with
      | none => .ok none
      | some e => if e.isParse then .ok (some e) else .error (internalErr e)
  match parseStep with
  | .error e => { pkg := pkg0, sum := Summary.empty, diff := Diff.empty, err := some e }
  | .ok parseErr0 =>
    let pkg0 := applyEnvRefsFn pkg0 opt.envRefs
    let envStep : Except GoErr (Option GoErr) :=
      if opt.envRefs.isEmpty then .ok parseErr0
      else
        match env.applyEnvRefsErr with
        | none => .ok none
        | some e => if e.isParse then .ok (some e) else .error (internalErr e)
    match envStep with
    | .error e => { pkg := pkg0, sum := Summary.empty, diff := Diff.empty, err := some e }
    | .ok parseErr1 =>
      match dryRunSecrets env pkg0.secrets with
      | .error msg =>
          { pkg := pkg0, sum := Summary.empty, diff := Diff.empty
            err := some { code := ECode.internal, msg := msg } }
      | .ok secrets1 =>
        let pkg1 : Pkg := { pkg0 with secrets := secrets1 }
        let bres := dryRunBuckets env pkg1.buckets
        let cres := dryRunChecks env pkg1.checks
        let diffDashs := dryRunDashboards pkg1.dashboards
        let lres := dryRunLabels env pkg1.labels
        let diffTasks := dryRunTasks pkg1.tasks
        let diffTeles := dryRunTelegraf pkg1.telegrafs
        let vres := dryRunVariables env pkg1.vars
        let pkg2 : Pkg :=
          { pkg1 with
            buckets := bres.1
            checks := cres.1
            labels := lres.1
            vars := vres.1 }
        match dryRunNotificationEndpoints env pkg2.endpoints with
        | .error msg =>
            { pkg := pkg2, sum := Summary.empty, diff := Diff.empty
              err := some { code := ECode.internal, msg := msg } }
        | .ok eres =>
          let pkg3 : Pkg := { pkg2 with endpoints := eres.1 }
          match dryRunNotificationRules env pkg3 with
          | .error e =>
              { pkg := pkg3, sum := Summary.empty, diff := Diff.empty, err := some e }
          | .ok diffRules =>
            match dryRunLabelMappings env pkg3 with
            | .error msg =>
                { pkg := pkg3, sum := Summary.empty, diff := Diff.empty
                  err := some { code := ECode.internal, msg := msg } }
            | .ok diffMappings =>
              let pkgF : Pkg := { pkg3 with isVerified := true }
              { pkg := pkgF
                sum := pkgF.summary
                diff :=
                  { buckets := bres.2, checks := cres.2, dashboards := diffDashs
                    labels := lres.2, tasks := diffTasks, telegrafs := diffTeles
                    vars := vres.2, notificationEndpoints := eres.2
                    notificationRules := diffRules, labelMappings := diffMappings }
                err := parseErr1 }

/-! ### Apply: tier machinery and rollback coordinator

`Apply` hands the coordinator a sequence of applier groups (tiers). The
concurrent dispatch inside `runTilEnd` is sequentialised: what is kept is
that every unit of a tier runs and has its error collected before the
tier returns, that each applier's rollbacker is appended to the
coordinator's list when the tier processes it, and the tier/rollback
ordering. Each applier's units are summarised by the oracle `work`, giving
the `applyErrBody` values its units push onto the error stream. -/

/-- The eleven appliers `Service.Apply` creates, in source order. -/
inductive ApplierId where
  | secrets
  | labels
  | vars
  | buckets
  | checks
  | dashboards
  | endpoints
  | tasks
  | telegrafs
  | rules
  | mappings
deriving DecidableEq, Repr

/-- The `resource` constant of each applier (its rollbacker's name and the
error stream's grouping key). -/
def applierResource : ApplierId → String
  | .secrets => "secrets"
  | .labels => "label"
  | .vars => "variable"
  | .buckets => "bucket"
  | .checks => "check"
  | .dashboards => "dashboard"
  | .endpoints => "notification_endpoints"
  | .tasks => "tasks"
  | .telegrafs => "telegrafs"
  | .rules => "notification_rules"
  | .mappings => "label_mapping"

/-- `applyErrBody`: the name and message a failed unit of work reports. -/
structure ApplyErrBody where
  name : String
  msg : String
deriving DecidableEq, Repr

/-- The message `applyErrs.toError` builds. -/
def applyErrsMsg (resType errMsg : String) (errs : List ApplyErrBody) : String :=
  "resource_type=\"" ++ resType ++ "\" err=\"" ++ errMsg ++ "\"" ++
    String.join (errs.map (fun e =>
      "\n\tname=\"" ++ e.name ++ "\" err_msg=\"" ++ e.msg ++ "\""))

/-- `applyErrs.toError`: nil for no errors, a joined error otherwise. -/
def applyErrsToError (resType errMsg : String) (errs : List ApplyErrBody) :
    Option GoErr :=
  if errs.isEmpty then none
  else some { code := ECode.plain, msg := applyErrsMsg resType errMsg errs }

/-- The error stream's aggregation for one tier: group the failed units by
applier resource and join each group's `toError` output, or nil when no
unit failed. -/
def aggregateTier (group : List ApplierId) (work : ApplierId → List ApplyErrBody) :
    Option GoErr :=
  let parts := (group.filter (fun a => (work a).isEmpty = false)).map
    (fun a => applyErrsMsg (applierResource a) "failed to create" (work a))
  if parts.isEmpty then none
  else some { code := ECode.plain, msg := String.intercalate "\n" parts }

/-- `rollbackCoordinator.runTilEnd`: every applier of the tier has its
rollbacker appended to the coordinator's list and all of its units run;
the aggregated tier error (if any) is returned after everything
finishes. -/
def runTilEnd (rollbacks : List ApplierId) (group : List ApplierId)
    (work : ApplierId → List ApplyErrBody) : List ApplierId × Option GoErr :=
  (rollbacks ++ group, aggregateTier group work)

/-- The `for _, group := range appliers` loop of `Service.Apply`: run the
tiers in order, stopping after the first tier whose aggregate error is
non-nil. Returns the recorded rollbackers, the tiers that ran, and the
first error. -/
def runGroups (work : ApplierId → List ApplyErrBody) :
    List ApplierId → List (List ApplierId) →
    List ApplierId × List (List ApplierId) × Option GoErr
  | rollbacks, [] => (rollbacks, [], none)
  | rollbacks, g :: gs =>
      match runTilEnd rollbacks g work with
      | (rb, some e) => (rb, [g], some e)
      | (rb, none) =>
          match runGroups work rb gs with
          | (rbF, ran, res) => (rbF, g :: ran, res)

/-- `rollbackCoordinator.rollback`: a no-op when the apply error is nil;
otherwise every recorded rollback closure is invoked, iterating the
recorded list in insertion order, and a failing closure is logged while
the iteration continues. Returns (closures invoked in order, closures
whose failure was logged). -/
def rollbackReplay (err : Option GoErr) (rollbacks : List ApplierId)
    (rbFail : ApplierId → Bool) : List ApplierId × List ApplierId :=
  match err with
  | none => ([], [])
  | some _ => (rollbacks, rollbacks.filter rbFail)

/-- The three statically-built applier groups of `Service.Apply`: the
secrets tier, the labels tier, and the primary-resource tier. -/
def applyGroups : List (List ApplierId) :=
  [[ApplierId.secrets],
   [ApplierId.labels],
   [ApplierId.vars, ApplierId.buckets, ApplierId.checks, ApplierId.dashboards,
    ApplierId.endpoints, ApplierId.tasks, ApplierId.telegrafs]]

/-- The full tier sequence of one apply: the static groups followed by
the notification-rule tier and the label-mapping tier. -/
def fullTierSeq : List (List ApplierId) :=
  applyGroups ++ [[ApplierId.rules], [ApplierId.mappings]]

/-- Modelled from the spec: `pkg.applySecrets` marks the user-supplied
secret keys as live in the package's secret map for the summary. -/
def Pkg.applySecrets (p : Pkg) (ms : List (String × String)) : Pkg :=
  { p with secrets := p.secrets.map (fun kv =>
      (kv.1, kv.2 || (ms.map Prod.fst).contains kv.1)) }

/-- The result of `Service.Apply`: the package as mutated, the internal
dry-run invocations with their arguments, the tiers that ran, the
rollbackers recorded, the rollback closures invoked and logged as failed,
the returned summary, and the returned error. -/
structure ApplyOut where
  pkg : Pkg
  dryRunCalls : List (ID × ID × Pkg × ApplyOpt)
  groupsRun : List (List ApplierId)
  rollbacksRecorded : List ApplierId
  rollbackInvoked : List ApplierId
  rollbackLogged : List ApplierId
  sum : Option Summary
  err : Option GoErr
deriving DecidableEq, Repr

/-- Assemble an `ApplyOut` for a return after the rollback coordinator
exists: the deferred `coordinator.rollback` fires on a non-nil error. -/
def finishApply (pkg : Pkg) (calls : List (ID × ID × Pkg × ApplyOpt))
    (groupsRun : List (List ApplierId)) (rollbacks : List ApplierId)
    (rbFail : ApplierId → Bool) (sum : Option Summary) (err : Option GoErr) :
    ApplyOut :=
  match rollbackReplay err rollbacks rbFail with
  | (invoked, logged) =>
      { pkg := pkg, dryRunCalls := calls, groupsRun := groupsRun
        rollbacksRecorded := rollbacks, rollbackInvoked := invoked
        rollbackLogged := logged, sum := sum, err := err }

/-- The resolver map of `Service.applyNotificationRulesGenerator`: live
endpoints keyed by display name, package endpoints added under their
package name when not already present, each mapped to `(id, type)`. -/
def rulesGenEndpointMap (lives : List InfluxEndpoint)
    (endpoints : List PkgEndpoint) : List (String × (ID × String)) :=
  let mLive := lives.map (fun e => (e.name, (e.id, e.eType)))
  endpoints.foldl (fun m e =>
    match mapLookup m e.pkgName with
    | some _ => m
    | none => upsert m e.pkgName (e.platformID, e.summarize.eType)) mLive

/-- The error body of the rule-resolver for a rule whose endpoint
dependency is missing at apply time. -/
def ruleGenErrBody (r : PkgRule) : ApplyErrBody :=
  { name := r.name
    msg := "endpoint dependency does not exist; endpointName=\"" ++
      r.endpointName ++ "\"" }

/-- The outcome of the tier phase of one apply (everything from the
coordinator's creation to the summary, without the deferred rollback). -/
structure TierPhaseOut where
  pkg : Pkg
  groupsRun : List (List ApplierId)
  rollbacks : List ApplierId
  err : Option GoErr
  sum : Option Summary
deriving DecidableEq, Repr

/-- The tier phase of `Service.Apply`: the three static groups through the
coordinator, then the notification-rule generator (whose collaborator
failure or unresolved references abort before the rule tier runs), the
rule tier, the label-mapping tier, and on full success the secret
marking and the summary. -/
def applyTiersPhase (env : Env) (work : ApplierId → List ApplyErrBody)
    (opt : ApplyOpt) (pkg2 : Pkg) : TierPhaseOut :=
  match runGroups work [] applyGroups with
  | (rb3, ran3, some e) =>
      { pkg := pkg2, groupsRun := ran3, rollbacks := rb3
        err := some (internalErr e), sum := none }
  | (rb3, ran3, none) =>
    match env.findEndpoints with
    | .error msg =>
        { pkg := pkg2, groupsRun := ran3, rollbacks := rb3
          err := some { code := ECode.internal, msg := msg }, sum := none }
    | .ok lives =>
      let mEndpoints := rulesGenEndpointMap lives pkg2.endpoints
      let genErrs := pkg2.rules.filterMap (fun r =>
        match mapLookup mEndpoints r.endpointName with
        | none => some (ruleGenErrBody r)
        | some _ => none)
      let rulesResolved := pkg2.rules.map (fun r =>
        match mapLookup mEndpoints r.endpointName with
        | some it => { r with endpointID := it.1, endpointType := it.2 }
        | none => r)
      let pkg3 : Pkg := { pkg2 with rules := rulesResolved }
      match applyErrsToError "notification_rules" "failed to find dependency" genErrs with
      | some e =>
          { pkg := pkg3, groupsRun := ran3, rollbacks := rb3
            err := some e, sum := none }
      | none =>
        match runTilEnd rb3 [ApplierId.rules] work with
        | (rb4, some e) =>
            { pkg := pkg3, groupsRun := ran3 ++ [[ApplierId.rules]]
              rollbacks := rb4, err := some e, sum := none }
        | (rb4, none) =>
          match runTilEnd rb4 [ApplierId.mappings] work with
          | (rb5, some e) =>
              { pkg := pkg3
                groupsRun := ran3 ++ [[ApplierId.rules], [ApplierId.mappings]]
                rollbacks := rb5, err := some (internalErr e), sum := none }
          | (rb5, none) =>
            let pkg4 := pkg3.applySecrets opt.missingSecrets
            { pkg := pkg4
              groupsRun := ran3 ++ [[ApplierId.rules], [ApplierId.mappings]]
              rollbacks := rb5, err := none, sum := some pkg4.summary }

/-- `Service.Apply`. Validation (without dry-run's parse-error tolerance),
unconditional env-ref substitution, internal dry-run when the package is
not yet verified, then the tier phase under the rollback coordinator;
the first tier error or generator error aborts and the deferred rollback
replays everything recorded. -/
def Apply (env : Env) (work : ApplierId → List ApplyErrBody)
    (rbFail : ApplierId → Bool) (orgID userID : ID) (opt : ApplyOpt)
    (pkg0 : Pkg) : ApplyOut :=
  let abortEarly := fun (p : Pkg) (calls : List (ID × ID × Pkg × ApplyOpt))
      (e : GoErr) =>
    ({ pkg := p, dryRunCalls := calls, groupsRun := [], rollbacksRecorded := []
       rollbackInvoked := [], rollbackLogged := [], sum := none
       err := some e } : ApplyOut)
  let validStep : Option GoErr :=
    if pkg0.isParsed then none
    else env.validateErr.map failedValidationErr
  match validStep with
  | some e => abortEarly pkg0 [] e
  | none =>
    let pkg1 := applyEnvRefsFn pkg0 opt.envRefs
    match env.applyEnvRefsErr with
    | some e => abortEarly pkg1 [] (failedValidationErr e)
    | none =>
      let verStep :
          List (ID × ID × Pkg × ApplyOpt) × Pkg × Option GoErr :=
        if pkg1.isVerified then ([], pkg1, none)
        else
          let dr := DryRun env orgID userID ApplyOpt.empty pkg1
          ([(orgID, userID, pkg1, ApplyOpt.empty)], dr.pkg, dr.err)
      match verStep with
      | (calls, pkg2, some e) => abortEarly pkg2 calls e
      | (calls, pkg2, none) =>
        let tp := applyTiersPhase env work opt pkg2
        finishApply tp.pkg calls tp.groupsRun tp.rollbacks rbFail tp.sum tp.err

/-! ### Per-resource appliers

The `createFn` of each applier is modelled as a function of the shared
slice, the rollback list and the unit index, returning the updated slice,
the updated rollback list, the downstream calls issued, and the
`applyErrBody` pushed on failure. Downstream create/update outcomes come
from an `ApplyEnv` oracle. -/

/-- Oracles for the downstream create/update calls of the apply phase. -/
structure ApplyEnv where
  updateBucket : ID → String → Nat → Except String InfluxBucket
  createBucket : InfluxBucket → Except String InfluxBucket
  updateLabel : ID → List (String × String) → Except String InfluxLabel
  createLabel : InfluxLabel → Except String InfluxLabel
  updateVariable : ID → String → String → Except String InfluxVariable
  createVariable : InfluxVariable → Except String InfluxVariable
  updateCheck : ID → String → String → Except String InfluxCheck
  createCheck : InfluxCheck → Except String InfluxCheck
  createDashboard : ID → String → String → Except String ID
  updateEndpoint : ID → Except String InfluxEndpoint
  createEndpoint : InfluxEndpoint → Except String InfluxEndpoint
  createTask : ID → String → Except String ID
  createTelegraf : ID → String → Except String ID

/-- The unit outcome of one applier `createFn` invocation. -/
structure CreateFnOut (ρ : Type) where
  items : List ρ
  rollback : List ρ
  calls : List SvcCall
  err : Option ApplyErrBody
deriving DecidableEq, Repr

/-- `Service.applyBucket`: update when an `existing` slot was captured at
dry-run (with the package's description and retention), create
otherwise. -/
def applyBucket (aenv : ApplyEnv) (b : PkgBucket) :
    SvcCall × Except String InfluxBucket :=
  match b.existing with
  | some _ =>
      (SvcCall.updateBucket b.platformID b.description b.rp,
       aenv.updateBucket b.platformID b.description b.rp)
  | none =>
      (SvcCall.createBucket b.orgID b.name b.description b.rp,
       aenv.createBucket
         { id := 0, orgID := b.orgID, name := b.name
           description := b.description, rp := b.rp })

/-- The `createFn` of `Service.applyBuckets`: set the org ID, skip the
unit entirely when `shouldApply` is false, otherwise apply and on success
record the platform ID and append the bucket to the rollback list. -/
def applyBucketsCreateFn (aenv : ApplyEnv) (orgID _userID : ID)
    (buckets : List PkgBucket) (rollback : List PkgBucket) (i : Nat) :
    CreateFnOut PkgBucket :=
  match buckets[i]? with
  | none => { items := buckets, rollback := rollback, calls := [], err := none }
  | some b0 =>
    let b := { b0 with orgID := orgID }
    let items1 := buckets.set i b
    if b.shouldApply = false then
      { items := items1, rollback := rollback, calls := [], err := none }
    else
      match applyBucket aenv b with
      | (call, .error msg) =>
          { items := items1, rollback := rollback, calls := [call]
            err := some { name := b.pkgName, msg := msg } }
      | (call, .ok ib) =>
          let b2 := { b with id := ib.id }
          { items := items1.set i b2, rollback := rollback ++ [b2]
            calls := [call], err := none }

/-- `Service.applyLabel`: update with the package's properties when live,
create otherwise. -/
def applyLabel (aenv : ApplyEnv) (l : PkgLabel) :
    SvcCall × Except String InfluxLabel :=
  match l.existing with
  | some _ =>
      (SvcCall.updateLabel l.platformID l.properties,
       aenv.updateLabel l.platformID l.properties)
  | none =>
      (SvcCall.createLabel l.orgID l.name l.properties,
       aenv.createLabel { id := 0, name := l.name, properties := l.properties })

/-- The `createFn` of `Service.applyLabels`: same skip-on-`shouldApply`
shape as buckets. -/
def applyLabelsCreateFn (aenv : ApplyEnv) (orgID _userID : ID)
    (labels : List PkgLabel) (rollback : List PkgLabel) (i : Nat) :
    CreateFnOut PkgLabel :=
  match labels[i]? with
  | none => { items := labels, rollback := rollback, calls := [], err := none }
  | some l0 =>
    let l := { l0 with orgID := orgID }
    let items1 := labels.set i l
    if l.shouldApply = false then
      { items := items1, rollback := rollback, calls := [], err := none }
    else
      match applyLabel aenv l with
      | (call, .error msg) =>
          { items := items1, rollback := rollback, calls := [call]
            err := some { name := l.pkgName, msg := msg } }
      | (call, .ok il) =>
          let l2 := { l with id := il.id }
          { items := items1.set i l2, rollback := rollback ++ [l2]
            calls := [call], err := none }

/-- `Service.applyVariable`: update with the package's description and
arguments when live, create otherwise. -/
def applyVariable (aenv : ApplyEnv) (v : PkgVariable) :
    SvcCall × Except String InfluxVariable :=
  match v.existing with
  | some _ =>
      (SvcCall.updateVariable v.platformID v.description v.args,
       aenv.updateVariable v.platformID v.description v.args)
  | none =>
      (SvcCall.createVariable v.orgID v.name v.description v.args,
       aenv.createVariable
         { id := 0, name := v.name, description := v.description, args := v.args })

/-- The `createFn` of `Service.applyVariables`: same skip-on-`shouldApply`
shape as buckets. -/
def applyVariablesCreateFn (aenv : ApplyEnv) (orgID _userID : ID)
    (vars : List PkgVariable) (rollback : List PkgVariable) (i : Nat) :
    CreateFnOut PkgVariable :=
  match vars[i]? with
  | none => { items := vars, rollback := rollback, calls := [], err := none }
  | some v0 =>
    let v := { v0 with orgID := orgID }
    let items1 := vars.set i v
    if v.shouldApply = false then
      { items := items1, rollback := rollback, calls := [], err := none }
    else
      match applyVariable aenv v with
      | (call, .error msg) =>
          { items := items1, rollback := rollback, calls := [call]
            err := some { name := v.name, msg := msg } }
      | (call, .ok iv) =>
          let v2 := { v with id := iv.id }
          { items := items1.set i v2, rollback := rollback ++ [v2]
            calls := [call], err := none }

/-- `Service.applyCheck`: update when live, create otherwise. -/
def applyCheck (aenv : ApplyEnv) (c : PkgCheck) :
    SvcCall × Except String InfluxCheck :=
  match c.existing with
  | some _ =>
      (SvcCall.updateCheck c.platformID c.name c.status,
       aenv.updateCheck c.platformID c.name c.status)
  | none =>
      (SvcCall.createCheck c.orgID c.name c.status,
       aenv.createCheck { id := 0, name := c.name, status := c.status })

/-- The `createFn` of `Service.applyChecks`: note there is no
`shouldApply` guard — every check unit applies. -/
def applyChecksCreateFn (aenv : ApplyEnv) (orgID _userID : ID)
    (checks : List PkgCheck) (rollback : List PkgCheck) (i : Nat) :
    CreateFnOut PkgCheck :=
  match checks[i]? with
  | none => { items := checks, rollback := rollback, calls := [], err := none }
  | some c0 =>
    let c := { c0 with orgID := orgID }
    let items1 := checks.set i c
    match applyCheck aenv c with
    | (call, .error msg) =>
        { items := items1, rollback := rollback, calls := [call]
          err := some { name := c.name, msg := msg } }
    | (call, .ok ic) =>
        let c2 := { c with id := ic.id }
        { items := items1.set i c2, rollback := rollback ++ [c2]
          calls := [call], err := none }

/-- The `createFn` of `Service.applyDashboards`: dashboards are always
created (no update path, no `shouldApply` guard). -/
def applyDashboardsCreateFn (aenv : ApplyEnv) (orgID _userID : ID)
    (dashs : List PkgDashboard) (rollback : List PkgDashboard) (i : Nat) :
    CreateFnOut PkgDashboard :=
  match dashs[i]? with
  | none => { items := dashs, rollback := rollback, calls := [], err := none }
  | some d0 =>
    let d := { d0 with orgID := orgID }
    let items1 := dashs.set i d
    match aenv.createDashboard d.orgID d.name d.description with
    | .error msg =>
        { items := items1, rollback := rollback
          calls := [SvcCall.createDashboard d.orgID d.name d.description]
          err := some { name := d.name, msg := msg } }
    | .ok newID =>
        let d2 := { d with id := newID }
        { items := items1.set i d2, rollback := rollback ++ [d2]
          calls := [SvcCall.createDashboard d.orgID d.name d.description]
          err := none }

/-- `Service.applyNotificationEndpoint`: update (passing the captured
existing endpoint) when live, create otherwise. -/
def applyNotificationEndpoint (aenv : ApplyEnv) (e : PkgEndpoint) :
    SvcCall × Except String InfluxEndpoint :=
  match e.existing with
  | some _ =>
      (SvcCall.updateEndpoint e.platformID, aenv.updateEndpoint e.platformID)
  | none =>
      (SvcCall.createEndpoint e.orgID e.name e.eType,
       aenv.createEndpoint e.summarize)

/-- The suffix-driven secret back-fill the endpoint applier performs on
the secret fields the collaborator returns. -/
def backfillSecrets (e : PkgEndpoint) (keys : List String) : PkgEndpoint :=
  keys.foldl (fun acc key =>
    if key.endsWith "-routing-key" then { acc with routingKeySecret := key }
    else if key.endsWith "-token" then { acc with tokenSecret := key }
    else if key.endsWith "-username" then { acc with usernameSecret := key }
    else if key.endsWith "-password" then { acc with passwordSecret := key }
    else acc) e

/-- The `createFn` of `Service.applyNotificationEndpoints`: no
`shouldApply` guard; on success the platform ID is recorded and the
secret slots are back-filled by key suffix. -/
def applyNotificationEndpointsCreateFn (aenv : ApplyEnv) (orgID _userID : ID)
    (endpoints : List PkgEndpoint) (rollback : List PkgEndpoint) (i : Nat) :
    CreateFnOut PkgEndpoint :=
  match endpoints[i]? with
  | none => { items := endpoints, rollback := rollback, calls := [], err := none }
  | some e0 =>
    let e := { e0 with orgID := orgID }
    let items1 := endpoints.set i e
    match applyNotificationEndpoint aenv e with
    | (call, .error msg) =>
        { items := items1, rollback := rollback, calls := [call]
          err := some { name := e.name, msg := msg } }
    | (call, .ok ie) =>
        let e2 := backfillSecrets { e with id := ie.id } ie.secretKeys
        { items := items1.set i e2, rollback := rollback ++ [e2]
          calls := [call], err := none }

/-- The `createFn` of `Service.applyTasks`: tasks are always created (no
update path, no `shouldApply` guard). -/
def applyTasksCreateFn (aenv : ApplyEnv) (orgID _userID : ID)
    (tasks : List PkgTask) (rollback : List PkgTask) (i : Nat) :
    CreateFnOut PkgTask :=
  match tasks[i]? with
  | none => { items := tasks, rollback := rollback, calls := [], err := none }
  | some t0 =>
    let t := { t0 with orgID := orgID }
    let items1 := tasks.set i t
    match aenv.createTask t.orgID t.name with
    | .error msg =>
        { items := items1, rollback := rollback
          calls := [SvcCall.createTask t.orgID t.name]
          err := some { name := t.name, msg := msg } }
    | .ok newID =>
        let t2 := { t with id := newID }
        { items := items1.set i t2, rollback := rollback ++ [t2]
          calls := [SvcCall.createTask t.orgID t.name], err := none }

/-- The `createFn` of `Service.applyTelegrafs`: telegraf configs are
always created (no update path, no `shouldApply` guard). -/
def applyTelegrafsCreateFn (aenv : ApplyEnv) (orgID _userID : ID)
    (teles : List PkgTelegraf) (rollback : List PkgTelegraf) (i : Nat) :
    CreateFnOut PkgTelegraf :=
  match teles[i]? with
  | none => { items := teles, rollback := rollback, calls := [], err := none }
  | some t0 =>
    let t := { t0 with orgID := orgID }
    let items1 := teles.set i t
    match aenv.createTelegraf t.orgID t.name with
    | .error msg =>
        { items := items1, rollback := rollback
          calls := [SvcCall.createTelegraf t.orgID t.name]
          err := some { name := t.name, msg := msg } }
    | .ok newID =>
        let t2 := { t with id := newID }
        { items := items1.set i t2, rollback := rollback ++ [t2]
          calls := [SvcCall.createTelegraf t.orgID t.name], err := none }

/-! ### Rollback functions of the appliers -/

/-- Failure oracles for the delete/update calls the rollback functions
make. -/
structure RbEnv where
  bucketDeleteErr : ID → Bool
  bucketUpdateErr : ID → Bool
  variableDeleteErr : ID → Bool
  variableUpdateErr : ID → Bool

/-- `Service.rollbackBuckets`: a bucket with no `existing` slot is
deleted; a bucket that pre-existed is sent an update carrying the
package bucket's own `Description` and `RetentionRules.RP()` (not the
captured pre-apply values). Failures are collected into one error. -/
def rollbackBuckets (renv : RbEnv) (buckets : List PkgBucket) :
    List SvcCall × Option String :=
  let calls := buckets.map (fun b =>
    match b.existing with
    | none => SvcCall.deleteBucket b.platformID
    | some _ => SvcCall.updateBucket b.platformID b.description b.rp)
  let errs := buckets.filterMap (fun b =>
    match b.existing with
    | none =>
        if renv.bucketDeleteErr b.platformID then some (toString b.platformID)
        else none
    | some _ =>
        if renv.bucketUpdateErr b.platformID then some (toString b.platformID)
        else none)
  (calls,
   if errs.isEmpty then none
   else some ("bucket_ids=[" ++ String.intercalate ", " errs ++
     "] err=\"unable to delete bucket\""))

/-- `Service.rollbackVariables`: a variable with no `existing` slot is
deleted; a variable that pre-existed is sent an update carrying the
captured existing variable's description and arguments (the pre-apply
values). -/
def rollbackVariables (renv : RbEnv) (vars : List PkgVariable) :
    List SvcCall × Option String :=
  let calls := vars.map (fun v =>
    match v.existing with
    | none => SvcCall.deleteVariable v.platformID
    | some ex => SvcCall.updateVariable v.platformID ex.description ex.args)
  let errs := vars.filterMap (fun v =>
    match v.existing with
    | none =>
        if renv.variableDeleteErr v.platformID then some (toString v.platformID)
        else none
    | some _ =>
        if renv.variableUpdateErr v.platformID then some (toString v.platformID)
        else none)
  (calls,
   if errs.isEmpty then none
   else some ("variable_ids=[" ++ String.intercalate ", " errs ++
     "] err=\"unable to delete variable\""))

/-! ### The secrets applier and its rollback (against a secret store) -/

/-- The org's secret store, key to value. -/
abbrev SecretStore := List (String × String)

/-- The effect of `SecretService.PutSecrets`: patch the supplied pairs
into the org's secret set. -/
def putSecretsStore (store : SecretStore) (secrets : List (String × String)) :
    SecretStore :=
  secrets.foldl (fun st kv => upsert st kv.1 kv.2) store

/-- Modelled from the spec: the collaborator's `DeleteSecret(ctx, orgID)`
called with no keys targets the full secret set of the organization. -/
def deleteSecretStore (_store : SecretStore) : SecretStore := []

/-- The unit outcome of the secrets applier's single `createFn`. -/
structure SecretsApplyOut where
  store : SecretStore
  rollbackSecrets : List String
  calls : List SvcCall
  err : Option ApplyErrBody
deriving DecidableEq, Repr

/-- The `createFn` of `Service.applySecrets` (one unit of work): write the
user-supplied secrets via `PutSecrets`; on success record the written
keys into `rollbackSecrets`. -/
def applySecretsCreateFn (putErr : Option String) (orgID : ID)
    (secrets : List (String × String)) (store : SecretStore) :
    SecretsApplyOut :=
  match putErr with
  | some msg =>
      { store := store, rollbackSecrets := []
        calls := [SvcCall.putSecrets orgID secrets]
        err := some { name := "secrets", msg := msg } }
  | none =>
      { store := putSecretsStore store secrets
        rollbackSecrets := secrets.map Prod.fst
        calls := [SvcCall.putSecrets orgID secrets]
        err := none }

/-- The rollbacker of `Service.applySecrets`: it ignores the recorded
`rollbackSecrets` keys and issues `DeleteSecret(ctx, orgID)` with no
keys. -/
def applySecretsRollbackFn (orgID : ID) (store : SecretStore) :
    SecretStore × List SvcCall :=
  (deleteSecretStore store, [SvcCall.deleteSecret orgID])

/-! ### Fixtures and concrete inputs used by the theorems below -/

/-- A rollback failure oracle under which every delete/update succeeds. -/
def rbNoFail : RbEnv :=
  { bucketDeleteErr := fun _ => false, bucketUpdateErr := fun _ => false
    variableDeleteErr := fun _ => false, variableUpdateErr := fun _ => false }

/-- Scenario S2's bucket after a successful update apply: live state
captured at dry-run was (description "old", retention 0), the package
declares (description "new", retention 3600). -/
def s2Bucket : PkgBucket :=
  { pkgName := "b1", name := "b1", description := "new", rp := 3600
    orgID := 1, id := 5, shouldApply := true
    existing := some { id := 5, orgID := 1, name := "b1"
                       description := "old", rp := 0 }
    labels := [] }

/-- An updated variable: captured existing values (description "vd-old",
args "args-old"), package values (description "vd-new", args
"args-new"). -/
def s2Variable : PkgVariable :=
  { pkgName := "v1", name := "v1", description := "vd-new", args := "args-new"
    orgID := 1, id := 7, shouldApply := true
    existing := some { id := 7, name := "v1", description := "vd-old"
                       args := "args-old" }
    labels := [] }

/-- An org secret store holding one key this apply never writes. -/
def c7Store : SecretStore := [("other", "o")]

/-- An `ApplyEnv` whose create/update calls all succeed with canned
results. -/
def aenvOk : ApplyEnv :=
  { updateBucket := fun i d rp => .ok { id := i, orgID := 1, name := "b", description := d, rp := rp }
    createBucket := fun b => .ok { b with id := 11 }
    updateLabel := fun i p => .ok { id := i, name := "l", properties := p }
    createLabel := fun l => .ok { l with id := 12 }
    updateVariable := fun i d a => .ok { id := i, name := "v", description := d, args := a }
    createVariable := fun v => .ok { v with id := 13 }
    updateCheck := fun i n st => .ok { id := i, name := n, status := st }
    createCheck := fun c => .ok { c with id := 14 }
    createDashboard := fun _ _ _ => .ok 15
    updateEndpoint := fun i => .ok { id := i, name := "e", eType := "slack", secretKeys := [] }
    createEndpoint := fun e => .ok { e with id := 16 }
    createTask := fun _ _ => .ok 17
    createTelegraf := fun _ _ => .ok 18 }

/-- A bucket marked as an already-associated reference only
(`shouldApply` false). -/
def skipBucket : PkgBucket :=
  { pkgName := "bSkip", name := "bSkip", description := "d", rp := 60
    orgID := 0, id := 42, shouldApply := false, existing := none, labels := [] }

/-- A check with `shouldApply` false — the checks applier ignores the
predicate. -/
def skipCheck : PkgCheck :=
  { pkgName := "cSkip", name := "cSkip", status := "active", orgID := 0
    id := 43, shouldApply := false, existing := none, labels := [] }

/-- A benign collaborator environment: nothing exists on the live side,
per-name finds answer "not found" errors, bulk listings answer empty, the
parser oracles answer nil. -/
def envBase : Env :=
  { validateErr := none
    applyEnvRefsErr := none
    secretKeys := .ok []
    findBucketByName := fun _ => .error "not found"
    findCheck := fun _ => .error "not found"
    findLabels := fun _ => .ok []
    findVariables := .ok []
    findEndpoints := .ok []
    findResourceLabels := fun _ _ => .ok [] }

/-- A fresh package bucket (no live counterpart yet). -/
def c8Bucket : PkgBucket :=
  { pkgName := "b1", name := "b1", description := "d", rp := 0, orgID := 0
    id := 0, shouldApply := true, existing := none, labels := [] }

/-- A fresh package check. -/
def c8Check : PkgCheck :=
  { pkgName := "c1", name := "c1", status := "active", orgID := 0, id := 0
    shouldApply := true, existing := none, labels := [] }

/-- A fresh package label. -/
def c8Label : PkgLabel :=
  { pkgName := "l1", name := "l1", properties := [], orgID := 0, id := 0
    shouldApply := true, existing := none }

/-- A work oracle under which every applier unit succeeds. -/
def workOk : ApplierId → List ApplyErrBody := fun _ => []

/-- A work oracle under which only the label-mapping tier fails. -/
def workMapFail : ApplierId → List ApplyErrBody := fun a =>
  match a with
  | ApplierId.mappings => [{ name := "m", msg := "boom" }]
  | _ => []

/-- A rollback-failure oracle under which every closure succeeds. -/
def rbFailNone : ApplierId → Bool := fun _ => false

/-- A parsed and already-verified empty package. -/
def pkgVerified : Pkg :=
  { isParsed := true, isVerified := true, buckets := [], checks := []
    dashboards := [], labels := [], endpoints := [], rules := [], tasks := []
    telegrafs := [], vars := [], secrets := [] }

/-- A parsed but not yet verified empty package. -/
def pkgUnverified : Pkg := { pkgVerified with isVerified := false }

/-- A parsed, unverified package that references one secret. -/
def pkgWithSecret : Pkg :=
  { pkgVerified with
    isVerified := false
    secrets := [("slack-token", false)] }

/-- The unparsed package used with `envParseErr`. -/
def pkgUnparsed : Pkg := { pkgVerified with isParsed := false, isVerified := false }

/-- An environment whose secret-key listing fails. -/
def envSecretsFail : Env := { envBase with secretKeys := .error "boom" }

/-- An unparsed package whose validation reports a parse error. -/
def envParseErr : Env :=
  { envBase with validateErr := some { code := ECode.parse, msg := "bad field" } }

/-- The options of the C3 counterexample run: the caller supplies a
missing secret. -/
def c3Opt : ApplyOpt := { envRefs := [], missingSecrets := [("slack-token", "x")] }

/-- The per-rule resolvability test of the dry-run rule loop, phrased on
the live endpoint display names and the package endpoint package-names. -/
def ruleMissing (liveNames pkgNames : List String) (x : PkgRule) : Bool :=
  !(liveNames.contains x.endpointName) && !(pkgNames.contains x.endpointName)

/-- A package rule referencing the endpoint "e1". -/
def c6Rule : PkgRule :=
  { pkgName := "r1", name := "r1", endpointName := "e1", endpointID := 0
    endpointType := "", orgID := 0, id := 0, shouldApply := true, labels := [] }

/-- A package with one bucket and one rule whose endpoint exists neither
live nor in the package. -/
def c6Pkg : Pkg :=
  { pkgVerified with
    isVerified := false
    buckets := [c8Bucket]
    rules := [c6Rule] }

/-! ### Shared lemmas -/

theorem lastWins_of_nodup {α : Type} :
    ∀ l : List (String × α), (l.map Prod.fst).Nodup → lastWins l = l := by
  intro l
  induction l with
  | nil => intro _; rfl
  | cons hd tl ih =>
      intro hnd
      rw [List.map_cons, List.nodup_cons] at hnd
      obtain ⟨hnotin, hndtl⟩ := hnd
      cases hd with
      | mk k v =>
          simp only [lastWins]
          rw [if_neg hnotin, ih hndtl]

theorem mapLookup_eq_none_iff {α : Type} (l : List (String × α)) (k : String) :
    mapLookup l k = none ↔ k ∉ l.map Prod.fst := by
  induction l with
  | nil => simp [mapLookup]
  | cons hd tl ih =>
      cases hd with
      | mk k0 v0 =>
          simp only [mapLookup, List.map_cons, List.mem_cons]
          cases htl : mapLookup tl k with
          | some v =>
              simp only []
              constructor
              · intro h; exact absurd h (by simp)
              · intro h
                exact absurd (htl ▸ (ih.mpr fun hm => h (Or.inr hm))) (by simp [htl])
          | none =>
              by_cases hk : k0 = k
              · simp [hk, htl]
              · simp only [if_neg hk]
                rw [htl] at ih
                simp only [true_iff] at ih
                simp only [true_iff]
                intro hor
                rcases hor with h1 | h2
                · exact hk h1.symm
                · exact ih h2

theorem mem_dedupSorted {α : Type} (r : α → α → Prop) [DecidableRel r]
    (entries : List (String × α)) (k : String) (v : α)
    (hnd : (entries.map Prod.fst).Nodup) (hmem : (k, v) ∈ entries) :
    v ∈ List.insertionSort r ((lastWins entries).map Prod.snd) := by
  rw [lastWins_of_nodup _ hnd, List.mem_insertionSort]
  exact List.mem_map_of_mem Prod.snd hmem

/-! ### Fixtures for concrete evaluations -/

/-- C1: for a pre-existing resource updated by apply, rollback is
specified to update it back to the pre-apply field values captured at
dry-run; in particular a bucket rollback should issue
`UpdateBucket(b1.id, description "old", retention 0)`. The code instead
sends the package's own description and retention on bucket rollback
(`b.Description`, `b.RetentionRules.RP()`), while variable rollback does
use the captured `existing` values — evaluating both at the S2 input
exhibits the divergence. -/
theorem claimC1_bucket_rollback_divergence :
    (rollbackBuckets rbNoFail [s2Bucket]).1 = [SvcCall.updateBucket 5 "new" 3600] ∧
    (rollbackBuckets rbNoFail [s2Bucket]).1 ≠ [SvcCall.updateBucket 5 "old" 0] ∧
    (rollbackVariables rbNoFail [s2Variable]).1 =
      [SvcCall.updateVariable 7 "vd-old" "args-old"] := by
  refine ⟨rfl, by decide, rfl⟩

/-- C7: the claim states that secret rollback removes exactly the keys
written by this apply and leaves every other org secret unchanged. The
secrets applier records the written keys but its rollbacker issues
`DeleteSecret(ctx, orgID)` with no keys, which targets the org's full
secret set: after rolling back an apply that wrote only "slack-token",
the unrelated pre-existing key "other" is gone as well. -/
theorem claimC7_secret_rollback_overreach :
    (applySecretsCreateFn none 1 [("slack-token", "xoxb-1")] c7Store).rollbackSecrets
        = ["slack-token"] ∧
    "other" ∉ (applySecretsCreateFn none 1 [("slack-token", "xoxb-1")] c7Store).rollbackSecrets ∧
    mapLookup (applySecretsCreateFn none 1 [("slack-token", "xoxb-1")] c7Store).store "other"
        = some "o" ∧
    (applySecretsRollbackFn 1
        (applySecretsCreateFn none 1 [("slack-token", "xoxb-1")] c7Store).store).1 = [] ∧
    mapLookup (applySecretsRollbackFn 1
        (applySecretsCreateFn none 1 [("slack-token", "xoxb-1")] c7Store).store).1 "other"
        = none ∧
    (applySecretsRollbackFn 1
        (applySecretsCreateFn none 1 [("slack-token", "xoxb-1")] c7Store).store).2
        = [SvcCall.deleteSecret 1] := by
  refine ⟨rfl, by decide, rfl, rfl, rfl, rfl⟩

/-- C10: a bucket, label, or variable whose `shouldApply` predicate is
false is skipped by its applier unit — no downstream call, no rollback
entry, and the slice keeps the resource with only its org ID stamped (its
`id` slot unchanged) — while the checks, dashboards, endpoints, tasks and
telegrafs appliers issue their downstream call for every unit without
consulting the predicate. -/
theorem claimC10_shouldApply_gate (aenv : ApplyEnv) (orgID userID : ID) :
    (∀ (bkts rb : List PkgBucket) (i : Nat) (b : PkgBucket),
      bkts[i]? = some b → b.shouldApply = false →
      applyBucketsCreateFn aenv orgID userID bkts rb i =
        { items := bkts.set i { b with orgID := orgID }, rollback := rb
          calls := [], err := none }) ∧
    (∀ (labels rb : List PkgLabel) (i : Nat) (l : PkgLabel),
      labels[i]? = some l → l.shouldApply = false →
      applyLabelsCreateFn aenv orgID userID labels rb i =
        { items := labels.set i { l with orgID := orgID }, rollback := rb
          calls := [], err := none }) ∧
    (∀ (vars rb : List PkgVariable) (i : Nat) (v : PkgVariable),
      vars[i]? = some v → v.shouldApply = false →
      applyVariablesCreateFn aenv orgID userID vars rb i =
        { items := vars.set i { v with orgID := orgID }, rollback := rb
          calls := [], err := none }) ∧
    (∀ (checks rb : List PkgCheck) (i : Nat) (c : PkgCheck),
      checks[i]? = some c →
      (applyChecksCreateFn aenv orgID userID checks rb i).calls.length = 1) ∧
    (∀ (dashs rb : List PkgDashboard) (i : Nat) (d : PkgDashboard),
      dashs[i]? = some d →
      (applyDashboardsCreateFn aenv orgID userID dashs rb i).calls.length = 1) ∧
    (∀ (eps rb : List PkgEndpoint) (i : Nat) (e : PkgEndpoint),
      eps[i]? = some e →
      (applyNotificationEndpointsCreateFn aenv orgID userID eps rb i).calls.length = 1) ∧
    (∀ (tasks rb : List PkgTask) (i : Nat) (t : PkgTask),
      tasks[i]? = some t →
      (applyTasksCreateFn aenv orgID userID tasks rb i).calls.length = 1) ∧
    (∀ (teles rb : List PkgTelegraf) (i : Nat) (t : PkgTelegraf),
      teles[i]? = some t →
      (applyTelegrafsCreateFn aenv orgID userID teles rb i).calls.length = 1) := by
  refine ⟨?_, ?_, ?_, ?_, ?_, ?_, ?_, ?_⟩
  · intro bkts rb i b hget hsa
    simp only [applyBucketsCreateFn, hget]
    simp [hsa]
  · intro labels rb i l hget hsa
    simp only [applyLabelsCreateFn, hget]
    simp [hsa]
  · intro vars rb i v hget hsa
    simp only [applyVariablesCreateFn, hget]
    simp [hsa]
  · intro checks rb i c hget
    simp only [applyChecksCreateFn, hget]
    rcases h : applyCheck aenv { c with orgID := orgID } with ⟨call, res⟩
    cases res <;> simp [h]
  · intro dashs rb i d hget
    simp only [applyDashboardsCreateFn, hget]
    cases h : aenv.createDashboard orgID d.name d.description <;> simp [h]
  · intro eps rb i e hget
    simp only [applyNotificationEndpointsCreateFn, hget]
    rcases h : applyNotificationEndpoint aenv { e with orgID := orgID } with ⟨call, res⟩
    cases res <;> simp [h]
  · intro tasks rb i t hget
    simp only [applyTasksCreateFn, hget]
    cases h : aenv.createTask orgID t.name <;> simp [h]
  · intro teles rb i t hget
    simp only [applyTelegrafsCreateFn, hget]
    cases h : aenv.createTelegraf orgID t.name <;> simp [h]

/-- Witness for C10 at concrete inputs: the skipped bucket's unit issues
no call, records nothing and keeps `id = 42`, while a check with the same
false predicate still issues its downstream call. -/
theorem claimC10_witness :
    applyBucketsCreateFn aenvOk 9 2 [skipBucket] [] 0 =
      { items := [{ skipBucket with orgID := 9 }], rollback := []
        calls := [], err := none } ∧
    (applyChecksCreateFn aenvOk 9 2 [skipCheck] [] 0).calls.length = 1 := by
  constructor
  · exact (claimC10_shouldApply_gate aenvOk 9 2).1 [skipBucket] [] 0 skipBucket rfl rfl
  · exact (claimC10_shouldApply_gate aenvOk 9 2).2.2.2.1 [skipCheck] [] 0 skipCheck rfl

theorem sorted_dryRunBuckets (env : Env) (bkts : List PkgBucket) :
    List.Sorted (byNameLe DiffBucket.name) (dryRunBuckets env bkts).2 := by
  unfold dryRunBuckets
  exact List.sorted_insertionSort _ _

theorem sorted_dryRunChecks (env : Env) (checks : List PkgCheck) :
    List.Sorted (byNameLe DiffCheck.name) (dryRunChecks env checks).2 := by
  unfold dryRunChecks
  exact List.sorted_insertionSort _ _

theorem sorted_dryRunLabels (env : Env) (labels : List PkgLabel) :
    List.Sorted (byNameLe DiffLabel.name) (dryRunLabels env labels).2 := by
  unfold dryRunLabels
  exact List.sorted_insertionSort _ _

theorem sorted_dryRunVariables (env : Env) (vars : List PkgVariable) :
    List.Sorted (byNameLe DiffVariable.name) (dryRunVariables env vars).2 := by
  unfold dryRunVariables
  exact List.sorted_insertionSort _ _

theorem sorted_dryRunNotificationEndpoints (env : Env)
    (eps : List PkgEndpoint) (pr : List PkgEndpoint × List DiffNotificationEndpoint)
    (h : dryRunNotificationEndpoints env eps = .ok pr) :
    List.Sorted (byNameLe DiffNotificationEndpoint.name) pr.2 := by
  unfold dryRunNotificationEndpoints at h
  split at h
  · exact absurd h (by simp)
  · simp only [Except.ok.injEq] at h
    subst h
    exact List.sorted_insertionSort _ _

theorem sorted_dryRunLabelMappings (env : Env) (pkg : Pkg)
    (ds : List DiffLabelMapping) (h : dryRunLabelMappings env pkg = .ok ds) :
    List.Sorted mappingLe ds := by
  unfold dryRunLabelMappings at h
  split at h
  · exact absurd h (by simp)
  · simp only [Except.ok.injEq] at h
    subst h
    exact List.sorted_insertionSort _ _

/-- C9: every diff list `DryRun` returns for buckets, checks, labels,
variables and notification endpoints is sorted by name ascending, and the
label-mapping diff list is sorted ascending by resource type, then
resource name, then label name. (Error paths return the zero diff, whose
lists are trivially sorted.) -/
theorem claimC9_diff_lists_sorted (env : Env) (orgID userID : ID)
    (opt : ApplyOpt) (pkg : Pkg) :
    List.Sorted (byNameLe DiffBucket.name) (DryRun env orgID userID opt pkg).diff.buckets ∧
    List.Sorted (byNameLe DiffCheck.name) (DryRun env orgID userID opt pkg).diff.checks ∧
    List.Sorted (byNameLe DiffLabel.name) (DryRun env orgID userID opt pkg).diff.labels ∧
    List.Sorted (byNameLe DiffVariable.name) (DryRun env orgID userID opt pkg).diff.vars ∧
    List.Sorted (byNameLe DiffNotificationEndpoint.name)
      (DryRun env orgID userID opt pkg).diff.notificationEndpoints ∧
    List.Sorted mappingLe (DryRun env orgID userID opt pkg).diff.labelMappings := by
  unfold DryRun
  repeat' (first | split | dsimp only)
  all_goals
    try exact ⟨List.sorted_nil, List.sorted_nil, List.sorted_nil,
      List.sorted_nil, List.sorted_nil, List.sorted_nil⟩
  all_goals
    exact ⟨sorted_dryRunBuckets _ _, sorted_dryRunChecks _ _,
      sorted_dryRunLabels _ _, sorted_dryRunVariables _ _,
      sorted_dryRunNotificationEndpoints _ _ _ (by assumption),
      sorted_dryRunLabelMappings _ _ _ (by assumption)⟩

theorem bucketEntry_fst (env : Env) (b : PkgBucket) :
    (bucketEntry env b).1 = b.name := by
  unfold bucketEntry; split <;> rfl

theorem checkEntry_fst (env : Env) (c : PkgCheck) :
    (checkEntry env c).1 = c.name := by
  unfold checkEntry; split <;> rfl

theorem labelEntry_fst (env : Env) (l : PkgLabel) :
    (labelEntry env l).1 = l.name := rfl

/-- C8: during dry-run of buckets, checks and labels, a not-found result
and any other failure of the per-name find call both yield a diff entry
with no live counterpart and `isNew` true, and leave the resource's
`existing` slot unset. (For buckets and checks every non-nil lookup error
lands in the `default` case; for labels both a lookup error and an empty
find result do.) -/
theorem claimC8_lookup_failure_yields_new (env : Env) :
    (∀ (bkts : List PkgBucket) (b : PkgBucket) (msg : String),
      (bkts.map PkgBucket.name).Nodup → b ∈ bkts →
      env.findBucketByName b.name = .error msg → b.existing = none →
      b ∈ (dryRunBuckets env bkts).1 ∧
      ∃ d ∈ (dryRunBuckets env bkts).2,
        d.name = b.name ∧ d.old = none ∧ d.isNew = true) ∧
    (∀ (checks : List PkgCheck) (c : PkgCheck) (msg : String),
      (checks.map PkgCheck.name).Nodup → c ∈ checks →
      env.findCheck c.name = .error msg → c.existing = none →
      c ∈ (dryRunChecks env checks).1 ∧
      ∃ d ∈ (dryRunChecks env checks).2,
        d.name = c.name ∧ d.old = none ∧ d.isNew = true) ∧
    (∀ (labels : List PkgLabel) (l : PkgLabel),
      (labels.map PkgLabel.name).Nodup → l ∈ labels →
      (env.findLabels l.name = .ok [] ∨ ∃ msg, env.findLabels l.name = .error msg) →
      l.existing = none →
      l ∈ (dryRunLabels env labels).1 ∧
      ∃ d ∈ (dryRunLabels env labels).2,
        d.name = l.name ∧ d.old = none ∧ d.isNew = true) := by
  refine ⟨?_, ?_, ?_⟩
  · intro bkts b msg hnd hb herr _hex
    have hupd : bucketUpd env b = b := by unfold bucketUpd; rw [herr]
    have hent : bucketEntry env b = (b.name, newDiffBucket b none) := by
      unfold bucketEntry; rw [herr]
    have hndE : ((bkts.map (bucketEntry env)).map Prod.fst).Nodup := by
      rw [List.map_map]
      have : bkts.map (Prod.fst ∘ bucketEntry env) = bkts.map PkgBucket.name :=
        List.map_congr_left (fun a _ => bucketEntry_fst env a)
      rw [this]; exact hnd
    constructor
    · unfold dryRunBuckets
      exact hupd ▸ List.mem_map_of_mem (bucketUpd env) hb
    · refine ⟨newDiffBucket b none, ?_, rfl, rfl, rfl⟩
      unfold dryRunBuckets
      exact mem_dedupSorted _ _ b.name _ hndE
        (hent ▸ List.mem_map_of_mem (bucketEntry env) hb)
  · intro checks c msg hnd hc herr _hex
    have hupd : checkUpd env c = c := by unfold checkUpd; rw [herr]
    have hent : checkEntry env c = (c.name, newDiffCheck c none) := by
      unfold checkEntry; rw [herr]
    have hndE : ((checks.map (checkEntry env)).map Prod.fst).Nodup := by
      rw [List.map_map]
      have : checks.map (Prod.fst ∘ checkEntry env) = checks.map PkgCheck.name :=
        List.map_congr_left (fun a _ => checkEntry_fst env a)
      rw [this]; exact hnd
    constructor
    · unfold dryRunChecks
      exact hupd ▸ List.mem_map_of_mem (checkUpd env) hc
    · refine ⟨newDiffCheck c none, ?_, rfl, rfl, rfl⟩
      unfold dryRunChecks
      exact mem_dedupSorted _ _ c.name _ hndE
        (hent ▸ List.mem_map_of_mem (checkEntry env) hc)
  · intro labels l hnd hl hdis _hex
    have hlk : labelLookup env l = none := by
      rcases hdis with h | ⟨msg, h⟩ <;> simp [labelLookup, h]
    have hupd : labelUpd env l = l := by unfold labelUpd; rw [hlk]
    have hent : labelEntry env l = (l.name, newDiffLabel l none) := by
      unfold labelEntry; rw [hlk]
    have hndE : ((labels.map (labelEntry env)).map Prod.fst).Nodup := by
      rw [List.map_map]
      have : labels.map (Prod.fst ∘ labelEntry env) = labels.map PkgLabel.name :=
        List.map_congr_left (fun a _ => labelEntry_fst env a)
      rw [this]; exact hnd
    constructor
    · unfold dryRunLabels
      exact hupd ▸ List.mem_map_of_mem (labelUpd env) hl
    · refine ⟨newDiffLabel l none, ?_, rfl, rfl, rfl⟩
      unfold dryRunLabels
      exact mem_dedupSorted _ _ l.name _ hndE
        (hent ▸ List.mem_map_of_mem (labelEntry env) hl)

/-- Witness for C8 at a concrete input: under `envBase` the lookups fail
(buckets and checks with a "not found" error, labels with an empty find
result), and each resource's diff has no live side while the resource
itself survives with its `existing` slot still unset. -/
theorem claimC8_witness :
    (c8Bucket ∈ (dryRunBuckets envBase [c8Bucket]).1 ∧
      ∃ d ∈ (dryRunBuckets envBase [c8Bucket]).2,
        d.name = c8Bucket.name ∧ d.old = none ∧ d.isNew = true) ∧
    (c8Check ∈ (dryRunChecks envBase [c8Check]).1 ∧
      ∃ d ∈ (dryRunChecks envBase [c8Check]).2,
        d.name = c8Check.name ∧ d.old = none ∧ d.isNew = true) ∧
    (c8Label ∈ (dryRunLabels envBase [c8Label]).1 ∧
      ∃ d ∈ (dryRunLabels envBase [c8Label]).2,
        d.name = c8Label.name ∧ d.old = none ∧ d.isNew = true) := by
  have h := claimC8_lookup_failure_yields_new envBase
  refine ⟨h.1 [c8Bucket] c8Bucket "not found" ?_ ?_ rfl rfl,
          h.2.1 [c8Check] c8Check "not found" ?_ ?_ rfl rfl,
          h.2.2 [c8Label] c8Label ?_ ?_ (Or.inl rfl) rfl⟩
  all_goals simp

/-! ### Lemmas on the tier loop -/

theorem runGroups_prefix (work : ApplierId → List ApplyErrBody) :
    ∀ (gs : List (List ApplierId)) (rb0 : List ApplierId),
    (runGroups work rb0 gs).2.1 <+: gs := by
  intro gs
  induction gs with
  | nil => intro rb0; simp [runGroups]
  | cons g gs ih =>
      intro rb0
      cases h : aggregateTier g work with
      | some e => simp [runGroups, runTilEnd, h]
      | none =>
          rcases hr : runGroups work (rb0 ++ g) gs with ⟨rbF, ran, res⟩
          simp only [runGroups, runTilEnd, h, hr]
          have hpre := ih (rb0 ++ g)
          rw [hr] at hpre
          dsimp only at hpre
          exact List.cons_prefix_cons.mpr ⟨rfl, hpre⟩

theorem runGroups_rollbacks (work : ApplierId → List ApplyErrBody) :
    ∀ (gs : List (List ApplierId)) (rb0 : List ApplierId),
    (runGroups work rb0 gs).1 = rb0 ++ (runGroups work rb0 gs).2.1.flatten := by
  intro gs
  induction gs with
  | nil => intro rb0; simp [runGroups]
  | cons g gs ih =>
      intro rb0
      cases h : aggregateTier g work with
      | some e => simp [runGroups, runTilEnd, h]
      | none =>
          rcases hr : runGroups work (rb0 ++ g) gs with ⟨rbF, ran, res⟩
          simp only [runGroups, runTilEnd, h, hr]
          have hrb := ih (rb0 ++ g)
          rw [hr] at hrb
          dsimp only at hrb
          simp only [List.flatten_cons, ← List.append_assoc]
          exact hrb

theorem runGroups_dropLast_clean (work : ApplierId → List ApplyErrBody) :
    ∀ (gs : List (List ApplierId)) (rb0 : List ApplierId),
    ((runGroups work rb0 gs).2.1.dropLast.all
      (fun g => (aggregateTier g work).isNone)) = true := by
  intro gs
  induction gs with
  | nil => intro rb0; simp [runGroups]
  | cons g gs ih =>
      intro rb0
      cases h : aggregateTier g work with
      | some e => simp [runGroups, runTilEnd, h]
      | none =>
          rcases hr : runGroups work (rb0 ++ g) gs with ⟨rbF, ran, res⟩
          simp only [runGroups, runTilEnd, h, hr]
          have hih := ih (rb0 ++ g)
          rw [hr] at hih
          dsimp only at hih
          cases ran with
          | nil => simp
          | cons r rs =>
              simp only [List.dropLast_cons₂, List.all_cons, Bool.and_eq_true]
              exact ⟨by simp [h], hih⟩

theorem runGroups_none (work : ApplierId → List ApplyErrBody) :
    ∀ (gs : List (List ApplierId)) (rb0 : List ApplierId),
    (runGroups work rb0 gs).2.2 = none →
    (runGroups work rb0 gs).2.1 = gs ∧
    (gs.all (fun g => (aggregateTier g work).isNone)) = true := by
  intro gs
  induction gs with
  | nil => intro rb0 _; simp [runGroups]
  | cons g gs ih =>
      intro rb0 hres
      cases h : aggregateTier g work with
      | some e =>
          rw [show (runGroups work rb0 (g :: gs)).2.2 = some e by
            simp [runGroups, runTilEnd, h]] at hres
          cases hres
      | none =>
          rcases hr : runGroups work (rb0 ++ g) gs with ⟨rbF, ran, res⟩
          simp only [runGroups, runTilEnd, h, hr] at hres ⊢
          have hih := ih (rb0 ++ g)
          rw [hr] at hih
          dsimp only at hih
          obtain ⟨h1, h2⟩ := hih hres
          simp only [List.all_cons, h1, h2]
          simp [h]

theorem runGroups_some (work : ApplierId → List ApplyErrBody) :
    ∀ (gs : List (List ApplierId)) (rb0 : List ApplierId) (e : GoErr),
    (runGroups work rb0 gs).2.2 = some e →
    ∃ g, (runGroups work rb0 gs).2.1.getLast? = some g ∧
      aggregateTier g work = some e := by
  intro gs
  induction gs with
  | nil => intro rb0 e h; simp [runGroups] at h
  | cons g gs ih =>
      intro rb0 e hres
      cases h : aggregateTier g work with
      | some e0 =>
          rw [show (runGroups work rb0 (g :: gs)).2.2 = some e0 by
            simp [runGroups, runTilEnd, h]] at hres
          rw [show (runGroups work rb0 (g :: gs)).2.1 = [g] by
            simp [runGroups, runTilEnd, h]]
          cases hres
          exact ⟨g, by simp, h⟩
      | none =>
          rcases hr : runGroups work (rb0 ++ g) gs with ⟨rbF, ran, res⟩
          simp only [runGroups, runTilEnd, h, hr] at hres ⊢
          have hih := ih (rb0 ++ g) e
          rw [hr] at hih
          dsimp only at hih
          obtain ⟨g0, hg1, hg2⟩ := hih hres
          refine ⟨g0, ?_, hg2⟩
          cases ran with
          | nil => simp at hg1
          | cons r rs => simpa using hg1

@[simp] theorem finishApply_groupsRun (pkg : Pkg) (calls : List (ID × ID × Pkg × ApplyOpt))
    (gr : List (List ApplierId)) (rb : List ApplierId) (rbFail : ApplierId → Bool)
    (sum : Option Summary) (err : Option GoErr) :
    (finishApply pkg calls gr rb rbFail sum err).groupsRun = gr := by
  unfold finishApply rollbackReplay; cases err <;> rfl

@[simp] theorem finishApply_rollbacksRecorded (pkg : Pkg) (calls : List (ID × ID × Pkg × ApplyOpt))
    (gr : List (List ApplierId)) (rb : List ApplierId) (rbFail : ApplierId → Bool)
    (sum : Option Summary) (err : Option GoErr) :
    (finishApply pkg calls gr rb rbFail sum err).rollbacksRecorded = rb := by
  unfold finishApply rollbackReplay; cases err <;> rfl

@[simp] theorem finishApply_err (pkg : Pkg) (calls : List (ID × ID × Pkg × ApplyOpt))
    (gr : List (List ApplierId)) (rb : List ApplierId) (rbFail : ApplierId → Bool)
    (sum : Option Summary) (err : Option GoErr) :
    (finishApply pkg calls gr rb rbFail sum err).err = err := by
  unfold finishApply rollbackReplay; cases err <;> rfl

@[simp] theorem finishApply_invoked_none (pkg : Pkg) (calls : List (ID × ID × Pkg × ApplyOpt))
    (gr : List (List ApplierId)) (rb : List ApplierId) (rbFail : ApplierId → Bool)
    (sum : Option Summary) :
    (finishApply pkg calls gr rb rbFail sum none).rollbackInvoked = [] := rfl

@[simp] theorem finishApply_invoked_some (pkg : Pkg) (calls : List (ID × ID × Pkg × ApplyOpt))
    (gr : List (List ApplierId)) (rb : List ApplierId) (rbFail : ApplierId → Bool)
    (sum : Option Summary) (e : GoErr) :
    (finishApply pkg calls gr rb rbFail sum (some e)).rollbackInvoked = rb := rfl

@[simp] theorem finishApply_logged_none (pkg : Pkg) (calls : List (ID × ID × Pkg × ApplyOpt))
    (gr : List (List ApplierId)) (rb : List ApplierId) (rbFail : ApplierId → Bool)
    (sum : Option Summary) :
    (finishApply pkg calls gr rb rbFail sum none).rollbackLogged = [] := rfl

@[simp] theorem finishApply_logged_some (pkg : Pkg) (calls : List (ID × ID × Pkg × ApplyOpt))
    (gr : List (List ApplierId)) (rb : List ApplierId) (rbFail : ApplierId → Bool)
    (sum : Option Summary) (e : GoErr) :
    (finishApply pkg calls gr rb rbFail sum (some e)).rollbackLogged = rb.filter rbFail := rfl

/-- The tier phase runs a prefix of the full tier sequence, records one
rollbacker per applier of each tier it runs, runs every tier before the
last one it runs without error, and runs everything exactly when it
returns no error. -/
theorem applyTiersPhase_spec (env : Env) (work : ApplierId → List ApplyErrBody)
    (opt : ApplyOpt) (pkg2 : Pkg) :
    (applyTiersPhase env work opt pkg2).groupsRun <+: fullTierSeq ∧
    (applyTiersPhase env work opt pkg2).rollbacks =
      (applyTiersPhase env work opt pkg2).groupsRun.flatten ∧
    ((applyTiersPhase env work opt pkg2).groupsRun.dropLast.all
      (fun g => (aggregateTier g work).isNone)) = true ∧
    ((applyTiersPhase env work opt pkg2).err = none →
      (applyTiersPhase env work opt pkg2).groupsRun = fullTierSeq) := by
  have hp := runGroups_prefix work applyGroups []
  have hrb := runGroups_rollbacks work applyGroups []
  have hdl := runGroups_dropLast_clean work applyGroups []
  have hnn := runGroups_none work applyGroups []
  rcases hRG : runGroups work [] applyGroups with ⟨rbA, ranA, res⟩
  rw [hRG] at hp hrb hdl hnn
  dsimp only at hp hrb hdl hnn
  unfold applyTiersPhase
  rw [hRG]
  cases res with
  | some e =>
      exact ⟨hp.trans (List.prefix_append _ _), by simpa using hrb, hdl, nofun⟩
  | none =>
      obtain ⟨hrn, hall⟩ := hnn rfl
      subst hrn
      cases hE : env.findEndpoints with
      | error msg =>
          exact ⟨List.prefix_append _ _, by simpa using hrb, hdl, nofun⟩
      | ok lives =>
          dsimp only
          split
          · exact ⟨List.prefix_append _ _, by simpa using hrb, hdl, nofun⟩
          · simp only [runTilEnd]
            split
            · rename_i rb4 e heq4
              injection heq4 with h41 h42
              refine ⟨⟨[[ApplierId.mappings]], by simp [fullTierSeq]⟩, ?_, ?_, nofun⟩
              · rw [← h41]
                simp [hrb]
              · rw [List.dropLast_concat]
                exact hall
            · rename_i rb4 heq4
              injection heq4 with h41 h42
              split
              · rename_i rb5 e heq5
                injection heq5 with h51 h52
                refine ⟨⟨[], by simp [fullTierSeq]⟩, ?_, ?_, nofun⟩
                · rw [← h51, ← h41]
                  simp [hrb]
                · rw [show applyGroups ++ [[ApplierId.rules], [ApplierId.mappings]] =
                    (applyGroups ++ [[ApplierId.rules]]) ++ [[ApplierId.mappings]] by simp]
                  rw [List.dropLast_concat, List.all_append]
                  simp [hall, h42]
              · rename_i rb5 heq5
                injection heq5 with h51 h52
                refine ⟨⟨[], by simp [fullTierSeq]⟩, ?_, ?_,
                  fun _ => by simp [fullTierSeq]⟩
                · rw [← h51, ← h41]
                  simp [hrb]
                · rw [show applyGroups ++ [[ApplierId.rules], [ApplierId.mappings]] =
                    (applyGroups ++ [[ApplierId.rules]]) ++ [[ApplierId.mappings]] by simp]
                  rw [List.dropLast_concat, List.all_append]
                  simp [hall, h42]

/-- C2: `Apply` executes its tiers strictly in order — secrets, labels,
primaries, notification rules, label mappings — as a prefix of the full
tier sequence in which every tier before the last one that ran
accumulated no error (so the first erroring tier aborts the apply and no
later tier runs); each tier that runs records exactly its appliers'
rollbackers; the apply returns no error exactly when all five tiers ran
cleanly; and a failing apply triggers the rollback of everything recorded
so far, while a clean apply rolls back nothing. -/
theorem claimC2_tiers_strict_order (env : Env) (work : ApplierId → List ApplyErrBody)
    (rbFail : ApplierId → Bool) (orgID userID : ID) (opt : ApplyOpt) (pkg : Pkg) :
    (Apply env work rbFail orgID userID opt pkg).groupsRun <+: fullTierSeq ∧
    (Apply env work rbFail orgID userID opt pkg).rollbacksRecorded =
      (Apply env work rbFail orgID userID opt pkg).groupsRun.flatten ∧
    ((Apply env work rbFail orgID userID opt pkg).groupsRun.dropLast.all
      (fun g => (aggregateTier g work).isNone)) = true ∧
    ((Apply env work rbFail orgID userID opt pkg).err = none →
      (Apply env work rbFail orgID userID opt pkg).groupsRun = fullTierSeq) ∧
    ((Apply env work rbFail orgID userID opt pkg).err.isSome = true →
      (Apply env work rbFail orgID userID opt pkg).rollbackInvoked =
        (Apply env work rbFail orgID userID opt pkg).rollbacksRecorded) ∧
    ((Apply env work rbFail orgID userID opt pkg).err = none →
      (Apply env work rbFail orgID userID opt pkg).rollbackInvoked = []) := by
  unfold Apply
  repeat' (first | split | dsimp only)
  all_goals
    try exact ⟨List.nil_prefix, rfl, rfl, nofun, fun _ => rfl, nofun⟩
  all_goals
    rename_i calls pkg2 heqV
  all_goals
    obtain ⟨h1, h2, h3, h4⟩ := applyTiersPhase_spec env work opt pkg2
  all_goals
    cases htp : (applyTiersPhase env work opt pkg2).err with
    | none =>
        refine ⟨by simpa using h1, by simpa using h2,
          by simpa using h3, fun _ => by simpa using h4 htp, ?_, ?_⟩
        · intro hctr
          simp at hctr
        · intro _
          rw [finishApply_invoked_none]
    | some e =>
        refine ⟨by simpa using h1, by simpa using h2,
          by simpa using h3, ?_, ?_, ?_⟩
        · intro hctr
          rw [finishApply_err] at hctr
          cases hctr
        · intro _
          rw [finishApply_invoked_some, finishApply_rollbacksRecorded]
        · intro hctr
          rw [finishApply_err] at hctr
          cases hctr

/-- Witness for C2 at a concrete input: a clean apply runs all five tiers
in order and rolls back nothing. -/
theorem claimC2_witness :
    (Apply envBase workOk rbFailNone 1 2 ApplyOpt.empty pkgVerified).groupsRun =
      fullTierSeq ∧
    (Apply envBase workOk rbFailNone 1 2 ApplyOpt.empty pkgVerified).rollbackInvoked = [] := by
  have h := claimC2_tiers_strict_order envBase workOk rbFailNone 1 2
    ApplyOpt.empty pkgVerified
  exact ⟨h.2.2.2.1 rfl, h.2.2.2.2.2 rfl⟩

/-- C5 counterexample: the claim says the recorded rollback closures are
replayed in reverse tier order relative to recording. In a run whose
label-mapping tier fails, eleven rollbackers are recorded
(secrets, label, ..., rules, mappings); the coordinator invokes them in
the recorded (forward) order, which differs from the claimed reverse
order. -/
theorem claimC5_counterexample :
    (Apply envBase workMapFail rbFailNone 1 2 ApplyOpt.empty pkgVerified).err.isSome = true ∧
    (Apply envBase workMapFail rbFailNone 1 2 ApplyOpt.empty pkgVerified).rollbackInvoked =
      (Apply envBase workMapFail rbFailNone 1 2 ApplyOpt.empty pkgVerified).rollbacksRecorded ∧
    (Apply envBase workMapFail rbFailNone 1 2 ApplyOpt.empty pkgVerified).rollbackInvoked ≠
      (Apply envBase workMapFail rbFailNone 1 2 ApplyOpt.empty pkgVerified).rollbacksRecorded.reverse := by
  refine ⟨rfl, rfl, by decide⟩

/-- C5 (amended): when apply fails, the recorded rollback closures are
replayed in the order they were recorded (forward tier order, not
reverse); each closure is best-effort — the set of closures invoked does
not depend on which closures fail, and the failing ones are logged — and
a clean apply invokes none. -/
theorem claimC5_rollback_replay (env : Env) (work : ApplierId → List ApplyErrBody)
    (rbFail : ApplierId → Bool) (orgID userID : ID) (opt : ApplyOpt) (pkg : Pkg) :
    (∀ (e : GoErr) (rbs : List ApplierId) (f : ApplierId → Bool),
      rollbackReplay (some e) rbs f = (rbs, rbs.filter f)) ∧
    ((Apply env work rbFail orgID userID opt pkg).err.isSome = true →
      (Apply env work rbFail orgID userID opt pkg).rollbackInvoked =
        (Apply env work rbFail orgID userID opt pkg).rollbacksRecorded) ∧
    ((Apply env work rbFail orgID userID opt pkg).err = none →
      (Apply env work rbFail orgID userID opt pkg).rollbackInvoked = []) ∧
    (Apply env work rbFail orgID userID opt pkg).rollbackLogged =
      (Apply env work rbFail orgID userID opt pkg).rollbackInvoked.filter rbFail ∧
    (Apply env work rbFail orgID userID opt pkg).rollbackInvoked =
      (Apply env work (fun _ => false) orgID userID opt pkg).rollbackInvoked := by
  refine ⟨fun e rbs f => rfl, ?_⟩
  unfold Apply
  repeat' (first | split | dsimp only)
  all_goals
    try exact ⟨fun _ => rfl, nofun, rfl, rfl⟩
  all_goals
    rename_i calls pkg2 heqV
  all_goals
    cases htp : (applyTiersPhase env work opt pkg2).err with
    | none =>
        refine ⟨?_, fun _ => by rw [finishApply_invoked_none], ?_, ?_⟩
        · intro hctr
          simp at hctr
        · rw [finishApply_logged_none, finishApply_invoked_none]
          rfl
        · rw [finishApply_invoked_none, finishApply_invoked_none]
    | some e =>
        refine ⟨fun _ => by
            rw [finishApply_invoked_some, finishApply_rollbacksRecorded], ?_, ?_, ?_⟩
        · intro hctr
          rw [finishApply_err] at hctr
          cases hctr
        · rw [finishApply_logged_some, finishApply_invoked_some]
        · rw [finishApply_invoked_some, finishApply_invoked_some]

/-- Witness for C5 at the failing-mappings input: eleven closures are
recorded and invoked in the recorded order. -/
theorem claimC5_witness :
    (Apply envBase workMapFail rbFailNone 1 2 ApplyOpt.empty pkgVerified).rollbackInvoked =
      (Apply envBase workMapFail rbFailNone 1 2 ApplyOpt.empty pkgVerified).rollbacksRecorded := by
  exact (claimC5_rollback_replay envBase workMapFail rbFailNone 1 2
    ApplyOpt.empty pkgVerified).2.1 rfl

theorem dryRunRulesGo_error_code (mE mP : List (String × InfluxEndpoint)) :
    ∀ (rules : List PkgRule) (e : GoErr),
    dryRunRulesGo mE mP rules = .error e → e.code = ECode.unprocessable := by
  intro rules
  induction rules with
  | nil => intro e h; simp [dryRunRulesGo] at h
  | cons r rest ih =>
      intro e h
      unfold dryRunRulesGo at h
      split at h
      · split at h
        · rename_i heq
          injection h with h
          exact h ▸ ih _ heq
        · exact absurd h (by simp)
      · split at h
        · split at h
          · rename_i heq
            injection h with h
            exact h ▸ ih _ heq
          · exact absurd h (by simp)
        · injection h with h
          subst h
          rfl

theorem dryRunNotificationRules_error_notParse (env : Env) (pkg : Pkg)
    (e : GoErr) (h : dryRunNotificationRules env pkg = .error e) :
    e.isParse = false := by
  unfold dryRunNotificationRules at h
  split at h
  · injection h with h
    subst h
    rfl
  · have := dryRunRulesGo_error_code _ _ _ _ h
    simp [GoErr.isParse, this]

/-- C4 counterexample: the claim says DryRun always sets `isVerified`
before returning. When the secret-key lookup fails, DryRun returns an
internal error without reaching the verification mark, and the package's
`isVerified` flag is still false. -/
theorem claimC4_counterexample :
    (DryRun envSecretsFail 1 2 ApplyOpt.empty pkgWithSecret).err.isSome = true ∧
    (DryRun envSecretsFail 1 2 ApplyOpt.empty pkgWithSecret).pkg.isVerified = false :=
  ⟨rfl, rfl⟩

/-- C4 (amended): `DryRun` sets the package's `isVerified` flag to true on
every return that reaches completion — in particular whenever it returns
no error or returns a parse error, so a later `Apply` can proceed without
re-running dry-run — while returns due to non-parse errors (validation,
secrets, endpoint, rule or label-mapping failures) leave the flag
unchanged. -/
theorem claimC4_verified_flag (env : Env) (orgID userID : ID)
    (opt : ApplyOpt) (pkg : Pkg) :
    ((DryRun env orgID userID opt pkg).err = none →
      (DryRun env orgID userID opt pkg).pkg.isVerified = true) ∧
    (∀ e, (DryRun env orgID userID opt pkg).err = some e → e.isParse = true →
      (DryRun env orgID userID opt pkg).pkg.isVerified = true) ∧
    (∀ e, (DryRun env orgID userID opt pkg).err = some e → e.isParse = false →
      (DryRun env orgID userID opt pkg).pkg.isVerified = pkg.isVerified) := by
  unfold DryRun
  repeat' (first | split | dsimp only)
  all_goals refine ⟨?_, ?_, ?_⟩
  all_goals try (exact fun h => absurd h (Option.some_ne_none _))
  all_goals try (intro _; rfl)
  all_goals try (intro e he hp; rfl)
  all_goals try (intro e he hnp; exact absurd he.symm (Option.some_ne_none _))
  all_goals try (intro e he hp; injection he with he2; subst he2; simp [GoErr.isParse, internalErr] at hp)
  all_goals try (rename_i err heqR; have hcode := dryRunNotificationRules_error_notParse _ _ _ heqR; simp [GoErr.isParse] at hcode; exact absurd (by assumption) hcode)
  all_goals simp_all [GoErr.isParse]

/-- Witness for C4 at a concrete input: a dry-run that returns a parse
error still marks the package verified. -/
theorem claimC4_witness :
    (DryRun envParseErr 1 2 ApplyOpt.empty pkgUnparsed).err =
      some { code := ECode.parse, msg := "bad field" } ∧
    (DryRun envParseErr 1 2 ApplyOpt.empty pkgUnparsed).pkg.isVerified = true := by
  refine ⟨rfl, ?_⟩
  exact (claimC4_verified_flag envParseErr 1 2 ApplyOpt.empty pkgUnparsed).2.1
    { code := ECode.parse, msg := "bad field" } rfl rfl

@[simp] theorem finishApply_dryRunCalls (pkg : Pkg) (calls : List (ID × ID × Pkg × ApplyOpt))
    (gr : List (List ApplierId)) (rb : List ApplierId) (rbFail : ApplierId → Bool)
    (sum : Option Summary) (err : Option GoErr) :
    (finishApply pkg calls gr rb rbFail sum err).dryRunCalls = calls := by
  unfold finishApply rollbackReplay; cases err <;> rfl

/-- C3 counterexample: the claim says Apply invokes dry-run internally
with the same arguments including the options. Applying an unverified
package with non-empty options records exactly one internal dry-run
invocation whose options are the zero `ApplyOpt` — not the options the
caller passed. -/
theorem claimC3_counterexample :
    (Apply envBase workOk rbFailNone 1 2 c3Opt pkgUnverified).dryRunCalls =
      [(1, 2, pkgUnverified, ApplyOpt.empty)] ∧
    ApplyOpt.empty ≠ c3Opt := by
  exact ⟨rfl, by decide⟩

/-- C3 (amended): for a package that passes Apply's validation and
env-ref steps, if its `isVerified` flag is false Apply invokes the
dry-run engine internally exactly once — with the same orgID, userID and
package, but with no options — before applying any tier (a failing
internal dry-run leaves every tier unrun); if the flag is already true
Apply does not invoke dry-run. -/
theorem claimC3_dryrun_invocation (env : Env) (work : ApplierId → List ApplyErrBody)
    (rbFail : ApplierId → Bool) (orgID userID : ID) (opt : ApplyOpt) (pkg : Pkg)
    (hparsed : pkg.isParsed = true) (henv : env.applyEnvRefsErr = none) :
    ((applyEnvRefsFn pkg opt.envRefs).isVerified = true →
      (Apply env work rbFail orgID userID opt pkg).dryRunCalls = []) ∧
    ((applyEnvRefsFn pkg opt.envRefs).isVerified = false →
      (Apply env work rbFail orgID userID opt pkg).dryRunCalls =
        [(orgID, userID, applyEnvRefsFn pkg opt.envRefs, ApplyOpt.empty)]) ∧
    ((applyEnvRefsFn pkg opt.envRefs).isVerified = false →
      (DryRun env orgID userID ApplyOpt.empty (applyEnvRefsFn pkg opt.envRefs)).err.isSome = true →
      (Apply env work rbFail orgID userID opt pkg).groupsRun = []) := by
  unfold Apply
  simp only [hparsed, henv, if_true]
  cases hv : (applyEnvRefsFn pkg opt.envRefs).isVerified with
  | true =>
      refine ⟨fun _ => ?_, fun hctr => absurd hctr (by simp),
        fun hctr _ => absurd hctr (by simp)⟩
      exact finishApply_dryRunCalls _ _ _ _ _ _ _
  | false =>
      refine ⟨fun hctr => absurd hctr (by simp), fun _ => ?_, fun _ hdr => ?_⟩
      · simp only [Bool.false_eq_true, if_false]
        cases hde : (DryRun env orgID userID ApplyOpt.empty (applyEnvRefsFn pkg opt.envRefs)).err with
        | some e => rfl
        | none => exact finishApply_dryRunCalls _ _ _ _ _ _ _
      · simp only [Bool.false_eq_true, if_false]
        cases hde : (DryRun env orgID userID ApplyOpt.empty (applyEnvRefsFn pkg opt.envRefs)).err with
        | some e => rfl
        | none => rw [hde] at hdr; cases hdr

/-- Witness for C3 at concrete inputs: the unverified package records
exactly one internal dry-run call carrying no options, and the verified
package records none. -/
theorem claimC3_witness :
    (Apply envBase workOk rbFailNone 1 2 c3Opt pkgUnverified).dryRunCalls =
      [(1, 2, pkgUnverified, ApplyOpt.empty)] ∧
    (Apply envBase workOk rbFailNone 1 2 c3Opt pkgVerified).dryRunCalls = [] := by
  constructor
  · exact (claimC3_dryrun_invocation envBase workOk rbFailNone 1 2 c3Opt
      pkgUnverified rfl rfl).2.1 rfl
  · exact (claimC3_dryrun_invocation envBase workOk rbFailNone 1 2 c3Opt
      pkgVerified rfl rfl).1 rfl

theorem dryRunRulesGo_first_missing (mE mP : List (String × InfluxEndpoint))
    (liveNames pkgNames : List String)
    (hE : mE.map Prod.fst = liveNames) (hP : mP.map Prod.fst = pkgNames) :
    ∀ (rules : List PkgRule) (r : PkgRule),
    rules.find? (ruleMissing liveNames pkgNames) = some r →
    dryRunRulesGo mE mP rules = .error (ruleDepErr r.endpointName r.name) := by
  intro rules
  induction rules with
  | nil => intro r h; simp at h
  | cons x rest ih =>
      intro r h
      cases hx : ruleMissing liveNames pkgNames x with
      | true =>
          rw [List.find?_cons_of_pos _ hx] at h
          injection h with h
          subst h
          have hx2 := hx
          simp only [ruleMissing, List.contains, List.elem_eq_mem,
            Bool.and_eq_true, Bool.not_eq_true', decide_eq_false_iff_not] at hx2
          obtain ⟨h1, h2⟩ := hx2
          have hme : mapLookup mE x.endpointName = none :=
            (mapLookup_eq_none_iff _ _).mpr (hE ▸ h1)
          have hmp : mapLookup mP x.endpointName = none :=
            (mapLookup_eq_none_iff _ _).mpr (hP ▸ h2)
          unfold dryRunRulesGo
          rw [hme, hmp]
      | false =>
          rw [List.find?_cons_of_neg _ (by simp [hx])] at h
          have hrec := ih r h
          unfold dryRunRulesGo
          cases hme : mapLookup mE x.endpointName with
          | some e => rw [hrec]
          | none =>
              have hne : x.endpointName ∉ liveNames := by
                have := (mapLookup_eq_none_iff mE x.endpointName).mp hme
                exact hE ▸ this
              cases hmp : mapLookup mP x.endpointName with
              | some e => rw [hrec]
              | none =>
                  exfalso
                  have hnp : x.endpointName ∉ pkgNames := by
                    have := (mapLookup_eq_none_iff mP x.endpointName).mp hmp
                    exact hP ▸ this
                  have : ruleMissing liveNames pkgNames x = true := by
                    simp [ruleMissing, List.contains, hne, hnp]
                  rw [this] at hx
                  cases hx

theorem dryRunNotificationEndpoints_pkgNames (env : Env) (eps : List PkgEndpoint)
    (pr : List PkgEndpoint × List DiffNotificationEndpoint)
    (h : dryRunNotificationEndpoints env eps = .ok pr) :
    pr.1.map PkgEndpoint.pkgName = eps.map PkgEndpoint.pkgName := by
  unfold dryRunNotificationEndpoints at h
  split at h
  · exact absurd h (by simp)
  · simp only [Except.ok.injEq] at h
    subst h
    dsimp only
    rw [List.map_map]
    refine List.map_congr_left ?_
    intro a _
    dsimp only [Function.comp]
    split <;> rfl

theorem dryRunNotificationRules_first_missing (env : Env) (p : Pkg)
    (lives : List InfluxEndpoint) (r : PkgRule)
    (hlive : env.findEndpoints = .ok lives)
    (hfind : p.rules.find? (ruleMissing (lives.map InfluxEndpoint.name)
      (p.endpoints.map PkgEndpoint.pkgName)) = some r) :
    dryRunNotificationRules env p = .error (ruleDepErr r.endpointName r.name) := by
  unfold dryRunNotificationRules
  rw [hlive]
  refine dryRunRulesGo_first_missing _ _ _ _ ?_ ?_ p.rules r hfind
  · rw [List.map_map]; rfl
  · rw [List.map_map]; rfl

theorem dryRunNotificationRules_error_inv (env : Env) (p : Pkg) (e : GoErr)
    (lives : List InfluxEndpoint) (r : PkgRule)
    (hlive : env.findEndpoints = .ok lives)
    (hfind : p.rules.find? (ruleMissing (lives.map InfluxEndpoint.name)
      (p.endpoints.map PkgEndpoint.pkgName)) = some r)
    (h : dryRunNotificationRules env p = .error e) :
    e = ruleDepErr r.endpointName r.name := by
  have h2 := dryRunNotificationRules_first_missing env p lives r hlive hfind
  rw [h2] at h
  injection h with h
  exact h.symm

theorem dryRunNotificationRules_ok_inv (env : Env) (p : Pkg)
    (ds : List DiffNotificationRule) (lives : List InfluxEndpoint) (r : PkgRule)
    (hlive : env.findEndpoints = .ok lives)
    (hfind : p.rules.find? (ruleMissing (lives.map InfluxEndpoint.name)
      (p.endpoints.map PkgEndpoint.pkgName)) = some r)
    (h : dryRunNotificationRules env p = .ok ds) : False := by
  have h2 := dryRunNotificationRules_first_missing env p lives r hlive hfind
  rw [h2] at h
  cases h

/-- C6 counterexample: the claim says the diff and summary for the other
kinds are still returned when a rule's endpoint dependency is missing.
DryRun on a package holding a bucket and such a rule fails with the
unprocessable dependency error but returns the zero diff and summary —
the bucket diff that the same dry-run produces once the bad rule is
removed is absent. -/
theorem claimC6_counterexample :
    (DryRun envBase 1 2 ApplyOpt.empty c6Pkg).err = some (ruleDepErr "e1" "r1") ∧
    (DryRun envBase 1 2 ApplyOpt.empty c6Pkg).diff = Diff.empty ∧
    (DryRun envBase 1 2 ApplyOpt.empty c6Pkg).sum = Summary.empty ∧
    (DryRun envBase 1 2 ApplyOpt.empty
      { c6Pkg with rules := [] }).diff.buckets ≠ [] := by
  refine ⟨rfl, rfl, rfl, by decide⟩

/-- C6 (amended): if a notification rule references an endpoint name that
exists neither among the organization's live endpoints nor among the
package's declared endpoints, DryRun fails with an unprocessable-entity
error naming both the rule and the missing endpoint (for the first such
rule), and returns the zero-value summary and diff rather than the other
kinds' data. Stated for a parsed package with no env refs and no
referenced secrets so that dry-run reaches the rule-resolution step. -/
theorem claimC6_missing_endpoint (env : Env) (orgID userID : ID)
    (opt : ApplyOpt) (pkg : Pkg) (lives : List InfluxEndpoint) (r : PkgRule)
    (hparsed : pkg.isParsed = true)
    (hrefs : opt.envRefs = [])
    (hsecrets : pkg.secrets = [])
    (hlive : env.findEndpoints = .ok lives)
    (hfind : pkg.rules.find? (ruleMissing (lives.map InfluxEndpoint.name)
      (pkg.endpoints.map PkgEndpoint.pkgName)) = some r) :
    (DryRun env orgID userID opt pkg).err = some (ruleDepErr r.endpointName r.name) ∧
    (DryRun env orgID userID opt pkg).sum = Summary.empty ∧
    (DryRun env orgID userID opt pkg).diff = Diff.empty := by
  unfold DryRun
  simp only [applyEnvRefsFn]
  repeat' (first | split | dsimp only)
  all_goals (rename_i hq; revert hq)
  · intro h
    rw [hparsed] at h
    simp at h
  · intro h
    rw [hrefs] at h
    simp at h
  · intro h
    rw [hsecrets] at h
    simp [dryRunSecrets] at h
  · intro h
    unfold dryRunNotificationEndpoints at h
    rw [hlive] at h
    simp at h
  · intro h
    rename_i eresv heqE xr errv
    refine ⟨?_, rfl, rfl⟩
    have hnames := dryRunNotificationEndpoints_pkgNames env _ _ heqE
    have he := dryRunNotificationRules_error_inv env _ errv lives r hlive
      (by dsimp only; rw [hnames]; exact hfind) h
    rw [he]
  · intro hM
    exfalso
    rename_i eresv heqE xr ds heqR xm e0
    have hnames := dryRunNotificationEndpoints_pkgNames env _ _ heqE
    exact dryRunNotificationRules_ok_inv env _ _ lives r hlive
      (by dsimp only; rw [hnames]; exact hfind) heqR
  · intro hM
    exfalso
    rename_i eresv heqE xr ds heqR xm dms
    have hnames := dryRunNotificationEndpoints_pkgNames env _ _ heqE
    exact dryRunNotificationRules_ok_inv env _ _ lives r hlive
      (by dsimp only; rw [hnames]; exact hfind) heqR

/-- Witness for C6 at the concrete package: the amended claim applied to
`c6Pkg` under the benign environment. -/
theorem claimC6_witness :
    (DryRun envBase 1 2 ApplyOpt.empty c6Pkg).err = some (ruleDepErr "e1" "r1") ∧
    (DryRun envBase 1 2 ApplyOpt.empty c6Pkg).diff = Diff.empty := by
  have h := claimC6_missing_endpoint envBase 1 2 ApplyOpt.empty c6Pkg [] c6Rule
    rfl rfl rfl rfl rfl
  exact ⟨h.1, h.2.2⟩

end Pkger
